import Mathlib

/-!
Verification of the subagent announce queue
(src/src/agents/subagent-announce-queue.ts).

The TypeScript module is shallowly embedded below: every pure helper is a
Lean function, the per-key mutable state is an explicit record, the global
registry map is a function from keys to optional states, and the
asynchronous drain loop is embedded as a deterministic step function
(drainCycle) that performs one iteration of the while loop of
scheduleAnnounceDrain, including the finally-block bookkeeping.  Send
failures are modelled by a boolean parameter of the step (the try/catch of
the drain closure).  Timestamps are abstract naturals; the debounce wait
suspends without observable state change, so it is not modelled (no claim
depends on real time).

Modelled from the spec: the delivery-context helpers
normalizeDeliveryContext and deliveryContextKey live outside this
repository (src/utils/delivery-context.ts is an external collaborator);
per the spec they are pure functions supplied by the host environment, so
they are taken as function parameters wherever the code calls them, and
DeliveryContext itself is an opaque descriptor, represented by String.
The send callback and the runtime logger are likewise external: a send
reference is an opaque Nat token, attempted sends and log lines are
returned as output lists.
-/

/-- Whitespace test used to model the JavaScript trim and regex
whitespace class on the character sets that actually occur here. -/
def isJsWs (c : Char) : Bool :=
  decide (c = ' ' ∨ c = '\t' ∨ c = '\n' ∨ c = '\r')

/-- List-level trim: drop leading and trailing whitespace. -/
def jsTrimList (l : List Char) : List Char :=
  ((l.dropWhile isJsWs).reverse.dropWhile isJsWs).reverse

/-- Embedding of the JavaScript String.prototype.trim. -/
def jsTrim (s : String) : String :=
  String.mk (jsTrimList s.data)

/-- Embedding of the JavaScript String.prototype.trimEnd. -/
def jsTrimEnd (s : String) : String :=
  String.mk ((s.data.reverse.dropWhile isJsWs).reverse)

/-- Embedding of text.replace with a global whitespace-run pattern and a
single-space replacement: every maximal whitespace run becomes one space. -/
def collapseWsList : List Char → List Char
  | [] => []
  | c :: rest =>
    if isJsWs c then ' ' :: collapseWsList (rest.dropWhile isJsWs)
    else c :: collapseWsList rest
termination_by l => l.length
decreasing_by
  all_goals simp only [List.length_cons]
  · exact Nat.lt_succ_of_le ((rest.dropWhile_suffix isJsWs).length_le)
  · exact Nat.lt_succ_self _

/-- Embedding of elideText from the source: keep the text when it fits in
the limit, otherwise cut it just below the limit, trim trailing
whitespace and append a one-character ellipsis. -/
def elideText (text : String) (limit : Nat) : String :=
  if text.length ≤ limit then text
  else jsTrimEnd (String.mk (text.data.take (limit - 1))) ++ "…"

/-- Queue delivery mode, from the imported QueueMode type: the drain loop
only distinguishes the collect mode from everything else (individual). -/
inductive QueueMode where
  | collect
  | individual
deriving DecidableEq, Repr

/-- Queue drop policy, from the imported QueueDropPolicy type: the code
distinguishes the reject-new policy, the summarizing eviction policy, and
the plain eviction policy (old) for every other value. -/
inductive QueueDropPolicy where
  | new
  | old
  | summarize
deriving DecidableEq, Repr

/-- Modelled from the spec: DeliveryContext is an opaque delivery-surface
descriptor supplied by the host; only its presence and its derived key are
inspected by this module, so it is represented by String. -/
abbrev DeliveryContext := String

/-- Embedding of the AnnounceQueueItem record. -/
structure AnnounceQueueItem where
  prompt : String
  summaryLine : Option String
  enqueuedAt : Nat
  sessionKey : String
  origin : Option DeliveryContext
  originKey : Option String
deriving DecidableEq, Repr

/-- Embedding of the AnnounceQueueSettings record; the optional numeric
fields are rationals so that the Math.floor and Math.max clamping of the
source is observable. -/
structure AnnounceQueueSettings where
  mode : QueueMode
  debounceMs : Option ℚ
  cap : Option ℚ
  dropPolicy : Option QueueDropPolicy
deriving DecidableEq, Repr

/-- Embedding of the AnnounceQueueState record.  The field
forceIndividualCollect embeds the drain closure-local variable of the same
name: per key there is at most one active drain closure, and every
idle-to-draining transition creates a fresh closure, which the model
expresses by resetting the field whenever scheduleAnnounceDrain actually
starts a drain.  The send callback is an opaque reference token. -/
structure AnnounceQueueState where
  items : List AnnounceQueueItem
  draining : Bool
  forceIndividualCollect : Bool
  lastEnqueuedAt : Nat
  mode : QueueMode
  debounceMs : ℚ
  cap : ℤ
  dropPolicy : QueueDropPolicy
  droppedCount : Nat
  summaryLines : List String
  send : Nat
deriving DecidableEq, Repr

/-- Registry of per-key queue states (the ANNOUNCE_QUEUES map). -/
abbrev Registry := String → Option AnnounceQueueState

/-- Registry with no entries. -/
def emptyRegistry : Registry := fun _ => none

/-- Map update (ANNOUNCE_QUEUES.set). -/
def updateReg (reg : Registry) (key : String) (q : AnnounceQueueState) : Registry :=
  fun k => if k = key then some q else reg k

/-- Map removal (ANNOUNCE_QUEUES.delete). -/
def eraseQueue (reg : Registry) (key : String) : Registry :=
  fun k => if k = key then none else reg k

/-- Merge branch of getAnnounceQueue: the entry exists and the supplied
settings are merged in place. -/
def mergeAnnounceQueue (existing : AnnounceQueueState) (settings : AnnounceQueueSettings)
    (send : Nat) : AnnounceQueueState :=
  { existing with
    mode := settings.mode
    debounceMs :=
      match settings.debounceMs with
      | some d => max 0 d
      | none => existing.debounceMs
    cap :=
      match settings.cap with
      | some c => if 0 < c then Rat.floor c else existing.cap
      | none => existing.cap
    dropPolicy := settings.dropPolicy.getD existing.dropPolicy
    send := send }

/-- Creation branch of getAnnounceQueue: no entry exists yet, defaults are
debounceMs 1000, cap 20 and the summarizing drop policy. -/
def createdAnnounceQueue (settings : AnnounceQueueSettings) (send : Nat) :
    AnnounceQueueState :=
  { items := []
    draining := false
    forceIndividualCollect := false
    lastEnqueuedAt := 0
    mode := settings.mode
    debounceMs :=
      match settings.debounceMs with
      | some d => max 0 d
      | none => 1000
    cap :=
      match settings.cap with
      | some c => if 0 < c then Rat.floor c else 20
      | none => 20
    dropPolicy := settings.dropPolicy.getD QueueDropPolicy.summarize
    droppedCount := 0
    summaryLines := []
    send := send }

/-- Embedding of getAnnounceQueue: dispatch on whether the registry holds
an entry for the key (the caller inserts the result back into the map). -/
def getAnnounceQueue (existing : Option AnnounceQueueState)
    (settings : AnnounceQueueSettings) (send : Nat) : AnnounceQueueState :=
  match existing with
  | some q => mergeAnnounceQueue q settings send
  | none => createdAnnounceQueue settings send

/-- Embedding of buildQueueSummaryLine: prefer the trimmed summary line
when it is non-empty (JavaScript or-else on the empty string), fall back
to the trimmed prompt, collapse whitespace runs, trim again, elide at 160. -/
def buildQueueSummaryLine (item : AnnounceQueueItem) : String :=
  let base :=
    match item.summaryLine with
    | some s => if jsTrim s = "" then jsTrim item.prompt else jsTrim s
    | none => jsTrim item.prompt
  let cleaned := jsTrim (String.mk (collapseWsList base.data))
  elideText cleaned 160

/-- Head-trimming loop of enqueueAnnounce: shift summaryLines until its
length is at most the cap. -/
def trimSummaryLines (cap : Nat) (lines : List String) : List String :=
  if lines.length ≤ cap then lines else lines.drop (lines.length - cap)

/-- Header line of the overflow summary, with the singular and plural
wording of the source template literal. -/
def summaryHeaderLine (n : Nat) : String :=
  "[Queue overflow] Dropped " ++ toString n ++ " announce" ++
    (if n = 1 then "" else "s") ++ " due to cap."

/-- Line list built by buildSummaryPrompt before joining: none unless the
policy is the summarizing one and drops are pending; the Summary section
is emitted only when summaryLines is non-empty. -/
def buildSummaryPromptLines (q : AnnounceQueueState) : Option (List String) :=
  if q.dropPolicy ≠ QueueDropPolicy.summarize ∨ q.droppedCount = 0 then none
  else
    some (summaryHeaderLine q.droppedCount ::
      (if q.summaryLines.isEmpty then []
       else "Summary:" :: q.summaryLines.map (fun l => "- " ++ l)))

/-- Join of an array of lines with a separator (Array.prototype.join). -/
def joinLines (sep : String) : List String → String
  | [] => ""
  | [l] => l
  | l :: rest => l ++ sep ++ joinLines sep rest

/-- Embedding of buildSummaryPrompt, including its destructive side
effect: when it returns a summary it also resets droppedCount and clears
summaryLines; the updated state is returned alongside the optional text. -/
def buildSummaryPrompt (q : AnnounceQueueState) :
    Option String × AnnounceQueueState :=
  match buildSummaryPromptLines q with
  | none => (none, q)
  | some lines =>
    (some (joinLines "\n" lines), { q with droppedCount := 0, summaryLines := [] })

/-- One numbered block of the collect prompt, trimmed as the source does. -/
def collectBlock (idx : Nat) (item : AnnounceQueueItem) : String :=
  jsTrim ("---\nQueued #" ++ toString (idx + 1) ++ "\n" ++ item.prompt)

/-- Numbered blocks of the collect prompt, starting at a given index. -/
def collectBlocks : List AnnounceQueueItem → Nat → List String
  | [], _ => []
  | i :: rest, idx => collectBlock idx i :: collectBlocks rest (idx + 1)

/-- Embedding of buildCollectPrompt: a fixed header block, then the
optional overflow summary, then one numbered block per item, joined with
blank lines. -/
def buildCollectPrompt (items : List AnnounceQueueItem) (summary : Option String) :
    String :=
  joinLines "\n\n"
    ("[Queued announce messages while agent was busy]" ::
      ((match summary with
        | some s => [s]
        | none => []) ++ collectBlocks items 0))

/-- Insertion into the key set of hasCrossChannelItems (a JavaScript Set
keeps one copy of each key). -/
def insertKeyOnce (k : String) (keys : List String) : List String :=
  if k ∈ keys then keys else keys ++ [k]

/-- Loop of hasCrossChannelItems: walk the items accumulating the set of
non-empty origin keys and whether an origin-less item was seen; an item
with an origin but a falsy origin key returns true immediately. -/
def hasCrossChannelLoop : List AnnounceQueueItem → List String → Bool → Bool
  | [], keys, hasUnkeyed =>
    if keys.length = 0 then false
    else if hasUnkeyed then true
    else decide (1 < keys.length)
  | item :: rest, keys, hasUnkeyed =>
    match item.origin with
    | none => hasCrossChannelLoop rest keys true
    | some _ =>
      match item.originKey with
      | none => true
      | some k =>
        if k = "" then true
        else hasCrossChannelLoop rest (insertKeyOnce k keys) hasUnkeyed

/-- Embedding of hasCrossChannelItems. -/
def hasCrossChannelItems (items : List AnnounceQueueItem) : Bool :=
  hasCrossChannelLoop items [] false

/-- Embedding of scheduleAnnounceDrain up to its first suspension: a
missing entry or an already-draining entry is a no-op; otherwise the
draining flag is set and a fresh drain closure starts, whose local
forceIndividualCollect begins as false. -/
def scheduleAnnounceDrain (reg : Registry) (key : String) : Registry :=
  match reg key with
  | none => reg
  | some q =>
    if q.draining then reg
    else updateReg reg key { q with draining := true, forceIndividualCollect := false }

/-- Log line produced by the catch block of the drain closure (the error
text itself comes from the external runtime and is abstracted away). -/
def drainFailLog (key : String) : String :=
  "announce queue drain failed for " ++ key

/-- Finally-block of the drain closure after the while loop stops (normal
exit, break, or a caught send failure): clear draining, then delete the
entry when the backlog is empty, otherwise re-schedule, which starts a
fresh closure with forceIndividualCollect reset. -/
def finalizeDrainPass (reg : Registry) (key : String) : Registry :=
  match reg key with
  | none => reg
  | some q =>
    if q.items = [] ∧ q.droppedCount = 0 then eraseQueue reg key
    else updateReg reg key { q with draining := true, forceIndividualCollect := false }

/-- Result of one drain-loop iteration: the registry afterwards, the items
handed to the send collaborator, and the log lines emitted. -/
structure CycleResult where
  reg : Registry
  sent : List AnnounceQueueItem
  logs : List String

/-- Send step of a drain cycle.  The per-key state q' already reflects the
pops and splices performed before the await of send.  A successful send
continues the loop; a failing send throws, is caught and logged, and the
finally-block runs on the already-mutated state. -/
def sendStep (reg : Registry) (key : String) (q' : AnnounceQueueState)
    (outItem : AnnounceQueueItem) (sendOk : Bool) : CycleResult :=
  if sendOk then ⟨updateReg reg key q', [outItem], []⟩
  else ⟨finalizeDrainPass (updateReg reg key q') key, [outItem], [drainFailLog key]⟩

/-- One iteration of the drain loop of scheduleAnnounceDrain for a key,
including the loop-condition check and the finally-block bookkeeping on
every exit path.  The sendOk parameter tells whether the send collaborator
succeeds if it is invoked in this iteration. -/
def drainCycle (reg : Registry) (key : String) (sendOk : Bool) : CycleResult :=
  match reg key with
  | none => ⟨reg, [], []⟩
  | some q =>
    if q.draining = false then ⟨reg, [], []⟩
    else if q.items = [] ∧ q.droppedCount = 0 then
      ⟨eraseQueue reg key, [], []⟩
    else
      match q.mode with
      | QueueMode.collect =>
        if q.forceIndividualCollect then
          match q.items with
          | [] => ⟨finalizeDrainPass reg key, [], []⟩
          | next :: rest => sendStep reg key { q with items := rest } next sendOk
        else if hasCrossChannelItems q.items then
          match q.items with
          | [] => ⟨finalizeDrainPass reg key, [], []⟩
          | next :: rest =>
            sendStep reg key { q with items := rest, forceIndividualCollect := true }
              next sendOk
        else
          let itemsAll := q.items
          let bs := buildSummaryPrompt { q with items := [] }
          let prompt := buildCollectPrompt itemsAll bs.1
          match itemsAll.getLast? with
          | none => ⟨finalizeDrainPass (updateReg reg key bs.2) key, [], []⟩
          | some last => sendStep reg key bs.2 { last with prompt := prompt } sendOk
      | QueueMode.individual =>
        let bs := buildSummaryPrompt q
        match bs.1 with
        | some s =>
          match bs.2.items with
          | [] => ⟨finalizeDrainPass (updateReg reg key bs.2) key, [], []⟩
          | next :: rest =>
            sendStep reg key { bs.2 with items := rest } { next with prompt := s }
              sendOk
        | none =>
          match q.items with
          | [] => ⟨finalizeDrainPass reg key, [], []⟩
          | next :: rest => sendStep reg key { q with items := rest } next sendOk

/-- Origin enrichment and append of enqueueAnnounce: normalize the origin,
derive the origin key, push a copy of the item to the tail. -/
def pushItem (normCtx : Option DeliveryContext → Option DeliveryContext)
    (ctxKey : Option DeliveryContext → Option String)
    (q : AnnounceQueueState) (item : AnnounceQueueItem) : AnnounceQueueState :=
  let origin := normCtx item.origin
  let okey := ctxKey origin
  { q with items := q.items ++ [{ item with origin := origin, originKey := okey }] }

/-- Result of enqueueAnnounce: the registry afterwards and the boolean the
call returns. -/
structure EnqueueOutcome where
  reg : Registry
  accepted : Bool

/-- Embedding of enqueueAnnounce: resolve or create the entry, stamp
lastEnqueuedAt, apply the drop policy when the cap is reached, append the
origin-enriched item unless rejected, and trigger the drain loop. -/
def enqueueAnnounce (normCtx : Option DeliveryContext → Option DeliveryContext)
    (ctxKey : Option DeliveryContext → Option String)
    (reg : Registry) (key : String) (item : AnnounceQueueItem)
    (settings : AnnounceQueueSettings) (send : Nat) (now : Nat) : EnqueueOutcome :=
  let q0 := getAnnounceQueue (reg key) settings send
  let q1 := { q0 with lastEnqueuedAt := now }
  let cap := q1.cap
  if 0 < cap ∧ cap ≤ (q1.items.length : ℤ) then
    if q1.dropPolicy = QueueDropPolicy.new then
      ⟨scheduleAnnounceDrain (updateReg reg key q1) key, false⟩
    else
      let dropCount := q1.items.length + 1 - cap.toNat
      let droppedItems := q1.items.take dropCount
      let keptItems := q1.items.drop dropCount
      let q2 :=
        if q1.dropPolicy = QueueDropPolicy.summarize then
          { q1 with
            items := keptItems
            droppedCount := q1.droppedCount + droppedItems.length
            summaryLines :=
              trimSummaryLines cap.toNat
                (q1.summaryLines ++ droppedItems.map buildQueueSummaryLine) }
        else { q1 with items := keptItems }
      let q3 := pushItem normCtx ctxKey q2 item
      ⟨scheduleAnnounceDrain (updateReg reg key q3) key, true⟩
  else
    let q3 := pushItem normCtx ctxKey q1 item
    ⟨scheduleAnnounceDrain (updateReg reg key q3) key, true⟩

/-- Observable events of the module: a synchronous enqueueAnnounce call,
or one iteration of an active drain loop (with the success of its send). -/
inductive QueueEvent where
  | enq (key : String) (item : AnnounceQueueItem) (settings : AnnounceQueueSettings)
      (send : Nat) (now : Nat)
  | cycle (key : String) (sendOk : Bool)

/-- Result of running a sequence of events. -/
structure TraceResult where
  reg : Registry
  sent : List AnnounceQueueItem
  logs : List String

/-- Deterministic interpreter for a sequence of events, collecting the
items handed to the send collaborator and the emitted log lines. -/
def runEvents (normCtx : Option DeliveryContext → Option DeliveryContext)
    (ctxKey : Option DeliveryContext → Option String) :
    Registry → List QueueEvent → TraceResult
  | reg, [] => ⟨reg, [], []⟩
  | reg, QueueEvent.enq key item settings send now :: rest =>
    let out := enqueueAnnounce normCtx ctxKey reg key item settings send now
    let r := runEvents normCtx ctxKey out.reg rest
    ⟨r.reg, r.sent, r.logs⟩
  | reg, QueueEvent.cycle key ok :: rest =>
    let c := drainCycle reg key ok
    let r := runEvents normCtx ctxKey c.reg rest
    ⟨r.reg, c.sent ++ r.sent, c.logs ++ r.logs⟩

/-- Registry after one event (used for registry invariants). -/
def stepEvent (normCtx : Option DeliveryContext → Option DeliveryContext)
    (ctxKey : Option DeliveryContext → Option String)
    (reg : Registry) : QueueEvent → Registry
  | QueueEvent.enq key item settings send now =>
    (enqueueAnnounce normCtx ctxKey reg key item settings send now).reg
  | QueueEvent.cycle key ok => (drainCycle reg key ok).reg

/-- Origin-enriched copy of an item as enqueueAnnounce appends it. -/
def pushedItem (normCtx : Option DeliveryContext → Option DeliveryContext)
    (ctxKey : Option DeliveryContext → Option String)
    (item : AnnounceQueueItem) : AnnounceQueueItem :=
  { item with origin := normCtx item.origin, originKey := ctxKey (normCtx item.origin) }

/-- Registry invariant of the spec: every entry has pending items, pending
drops, or an in-flight drain. -/
def RegInv (reg : Registry) : Prop :=
  ∀ key q, reg key = some q →
    (q.items ≠ [] ∨ 0 < q.droppedCount ∨ q.draining = true)

/-- Falsy origin key in the JavaScript sense: absent or the empty string
(no derivable origin key). -/
def originKeyFalsy (i : AnnounceQueueItem) : Prop :=
  i.originKey = none ∨ i.originKey = some ""

/-- Cross-channel condition as the spec words it: (a) two or more items
carry distinct non-empty origin keys, or (b) at least one item has an
origin but no derivable origin key while the set is non-trivial
(non-empty), or (c) the set mixes items that have an origin with items
that have none. -/
def specCross (items : List AnnounceQueueItem) : Prop :=
  (∃ i ∈ items, ∃ j ∈ items, ∃ ki kj, i.originKey = some ki ∧ j.originKey = some kj ∧
    ki ≠ "" ∧ kj ≠ "" ∧ ki ≠ kj) ∨
  ((∃ i ∈ items, i.origin ≠ none ∧ originKeyFalsy i) ∧ items ≠ []) ∨
  ((∃ i ∈ items, i.origin ≠ none) ∧ (∃ i ∈ items, i.origin = none))

/-- Key set accumulated by the loop of hasCrossChannelItems when no item
returns early (proof helper). -/
def crossKeys : List AnnounceQueueItem → List String → List String
  | [], keys => keys
  | i :: rest, keys =>
    match i.origin, i.originKey with
    | some _, some k => crossKeys rest (insertKeyOnce k keys)
    | _, _ => crossKeys rest keys

/-- Concrete item builder for witnesses. -/
def mkAnnounceItem (p sk : String) (o k : Option String) : AnnounceQueueItem :=
  ⟨p, none, 0, sk, o, k⟩

/-- Identity origin normalizer used by witnesses. -/
def idCtx : Option DeliveryContext → Option DeliveryContext := fun o => o

/-- Origin-key derivation used by witnesses: the key of a context is the
context itself. -/
def keyCtx : Option DeliveryContext → Option String := fun o => o

/-- Concrete queue state builder for witnesses: items, mode, policy,
dropped count and summary lines vary, the rest is fixed. -/
def mkQueueState (items : List AnnounceQueueItem) (dr fc : Bool) (m : QueueMode)
    (pol : QueueDropPolicy) (dc : Nat) (sl : List String) : AnnounceQueueState :=
  ⟨items, dr, fc, 0, m, 1000, 20, pol, dc, sl, 7⟩

/-- Item with a fixed origin and origin key (proof abbreviation). -/
def keyedItem (i : AnnounceQueueItem) (o : DeliveryContext) (ch : String) :
    AnnounceQueueItem :=
  { i with origin := some o, originKey := some ch }

/-- Collect-mode draining state with default config (proof abbreviation). -/
def collectState (items : List AnnounceQueueItem) (last : Nat) (sd : Nat) :
    AnnounceQueueState :=
  ⟨items, true, false, last, QueueMode.collect, 1000, 20, QueueDropPolicy.summarize,
    0, [], sd⟩

/-- Event trace of the single-channel collect scenario: three enqueues for
one key in collect mode with default settings, then two drain iterations. -/
def collectTrace (i1 i2 i3 : AnnounceQueueItem) (sd : Nat) : List QueueEvent :=
  [QueueEvent.enq "k" i1 ⟨QueueMode.collect, none, none, none⟩ sd 1,
   QueueEvent.enq "k" i2 ⟨QueueMode.collect, none, none, none⟩ sd 2,
   QueueEvent.enq "k" i3 ⟨QueueMode.collect, none, none, none⟩ sd 3,
   QueueEvent.cycle "k" true, QueueEvent.cycle "k" true]

/-- Item stripped of origin information (proof abbreviation). -/
def noKeyItem (i : AnnounceQueueItem) : AnnounceQueueItem :=
  { i with origin := none, originKey := none }

/-- Draining state with cap 2 and the summarizing policy (proof
abbreviation). -/
def capTwoState (m : QueueMode) (items : List AnnounceQueueItem) (last : Nat)
    (sd : Nat) (dc : Nat) (sl : List String) : AnnounceQueueState :=
  ⟨items, true, false, last, m, 1000, 2, QueueDropPolicy.summarize, dc, sl, sd⟩

/-- Event trace of the cap-two overflow scenario: four enqueues for one key
with cap 2 and the summarizing drop policy. -/
def capTwoEnqs (m : QueueMode) (i1 i2 i3 i4 : AnnounceQueueItem) (sd : Nat) :
    List QueueEvent :=
  [QueueEvent.enq "k" i1 ⟨m, none, some 2, some QueueDropPolicy.summarize⟩ sd 1,
   QueueEvent.enq "k" i2 ⟨m, none, some 2, some QueueDropPolicy.summarize⟩ sd 2,
   QueueEvent.enq "k" i3 ⟨m, none, some 2, some QueueDropPolicy.summarize⟩ sd 3,
   QueueEvent.enq "k" i4 ⟨m, none, some 2, some QueueDropPolicy.summarize⟩ sd 4]

theorem updateReg_self (reg : Registry) (key : String) (q : AnnounceQueueState) :
    updateReg reg key q key = some q := by
  simp [updateReg]

theorem updateReg_other (reg : Registry) (key k : String) (q : AnnounceQueueState)
    (h : k ≠ key) : updateReg reg key q k = reg k := by
  simp [updateReg, h]

theorem eraseQueue_self (reg : Registry) (key : String) :
    eraseQueue reg key key = none := by
  simp [eraseQueue]

theorem eraseQueue_other (reg : Registry) (key k : String) (h : k ≠ key) :
    eraseQueue reg key k = reg k := by
  simp [eraseQueue, h]

theorem schedule_noop_of_draining (reg : Registry) (key : String)
    (q : AnnounceQueueState) (h : reg key = some q) (hd : q.draining = true) :
    scheduleAnnounceDrain reg key = reg := by
  unfold scheduleAnnounceDrain
  rw [h]
  simp [hd]

theorem schedule_activates (reg : Registry) (key : String)
    (q : AnnounceQueueState) (h : reg key = some q) (hd : q.draining = false) :
    scheduleAnnounceDrain reg key =
      updateReg reg key { q with draining := true, forceIndividualCollect := false } := by
  unfold scheduleAnnounceDrain
  rw [h]
  simp [hd]

/-- C7: getOrCreate on an existing key merges in place (mode and send
always overwritten; debounceMs overwritten exactly when a number is
supplied, clamped at 0; cap overwritten exactly when a positive number is
supplied, floored to an integer; dropPolicy overwritten exactly when
supplied; buffers and bookkeeping untouched), and on a missing key with no
optional settings it creates an entry with defaults debounceMs 1000,
cap 20, dropPolicy evict-oldest-and-summarize and empty buffers. -/
theorem getAnnounceQueue_merge_and_create_spec :
    (∀ (q : AnnounceQueueState) (s : AnnounceQueueSettings) (sd : Nat),
      (getAnnounceQueue (some q) s sd).mode = s.mode ∧
      (getAnnounceQueue (some q) s sd).send = sd ∧
      (∀ d, s.debounceMs = some d → (getAnnounceQueue (some q) s sd).debounceMs = max 0 d) ∧
      (s.debounceMs = none → (getAnnounceQueue (some q) s sd).debounceMs = q.debounceMs) ∧
      (∀ c, s.cap = some c → 0 < c → (getAnnounceQueue (some q) s sd).cap = Rat.floor c) ∧
      (∀ c, s.cap = some c → ¬ 0 < c → (getAnnounceQueue (some q) s sd).cap = q.cap) ∧
      (s.cap = none → (getAnnounceQueue (some q) s sd).cap = q.cap) ∧
      (∀ p, s.dropPolicy = some p → (getAnnounceQueue (some q) s sd).dropPolicy = p) ∧
      (s.dropPolicy = none → (getAnnounceQueue (some q) s sd).dropPolicy = q.dropPolicy) ∧
      (getAnnounceQueue (some q) s sd).items = q.items ∧
      (getAnnounceQueue (some q) s sd).summaryLines = q.summaryLines ∧
      (getAnnounceQueue (some q) s sd).droppedCount = q.droppedCount ∧
      (getAnnounceQueue (some q) s sd).draining = q.draining ∧
      (getAnnounceQueue (some q) s sd).lastEnqueuedAt = q.lastEnqueuedAt) ∧
    (∀ (m : QueueMode) (sd : Nat),
      getAnnounceQueue none ⟨m, none, none, none⟩ sd =
        { items := [], draining := false, forceIndividualCollect := false,
          lastEnqueuedAt := 0, mode := m, debounceMs := 1000, cap := 20,
          dropPolicy := QueueDropPolicy.summarize, droppedCount := 0,
          summaryLines := [], send := sd }) := by
  constructor
  · intro q s sd
    refine ⟨rfl, rfl, ?_, ?_, ?_, ?_, ?_, ?_, ?_, rfl, rfl, rfl, rfl, rfl⟩
    · intro d hd
      simp [getAnnounceQueue, mergeAnnounceQueue, hd]
    · intro hd
      simp [getAnnounceQueue, mergeAnnounceQueue, hd]
    · intro c hc hpos
      simp [getAnnounceQueue, mergeAnnounceQueue, hc, hpos]
    · intro c hc hpos
      simp [getAnnounceQueue, mergeAnnounceQueue, hc, hpos]
    · intro hc
      simp [getAnnounceQueue, mergeAnnounceQueue, hc]
    · intro p hp
      simp [getAnnounceQueue, mergeAnnounceQueue, hp]
    · intro hp
      simp [getAnnounceQueue, mergeAnnounceQueue, hp]
  · intro m sd
    rfl

theorem getAnnounceQueue_merge_and_create_spec_witness :
    (getAnnounceQueue (some (mkQueueState [] false false QueueMode.collect
        QueueDropPolicy.old 0 []))
      ⟨QueueMode.individual, some (-5), some (5/2), some QueueDropPolicy.new⟩ 9).debounceMs
        = max 0 (-5 : ℚ) ∧
    (getAnnounceQueue (some (mkQueueState [] false false QueueMode.collect
        QueueDropPolicy.old 0 []))
      ⟨QueueMode.individual, some (-5), some (5/2), some QueueDropPolicy.new⟩ 9).cap
        = Rat.floor (5/2 : ℚ) ∧
    getAnnounceQueue none ⟨QueueMode.collect, none, none, none⟩ 3 =
      { items := [], draining := false, forceIndividualCollect := false,
        lastEnqueuedAt := 0, mode := QueueMode.collect, debounceMs := 1000, cap := 20,
        dropPolicy := QueueDropPolicy.summarize, droppedCount := 0,
        summaryLines := [], send := 3 } := by
  refine ⟨?_, ?_, ?_⟩
  · exact (getAnnounceQueue_merge_and_create_spec.1 _ _ 9).2.2.1 (-5) rfl
  · exact (getAnnounceQueue_merge_and_create_spec.1 _ _ 9).2.2.2.2.1 (5/2) rfl (by norm_num)
  · exact getAnnounceQueue_merge_and_create_spec.2 QueueMode.collect 3

/-- C4: when the (merged) drop policy is reject-new and the queue already
holds at least cap items (cap positive), enqueueAnnounce returns false,
appends nothing (items, droppedCount and summaryLines unchanged; only
lastEnqueuedAt and the merged configuration change), and still triggers
the drain loop; rejection is a boolean return of the total function, never
a raised error. -/
theorem enqueue_reject_new_spec
    (normCtx : Option DeliveryContext → Option DeliveryContext)
    (ctxKey : Option DeliveryContext → Option String)
    (reg : Registry) (key : String) (q : AnnounceQueueState)
    (item : AnnounceQueueItem) (settings : AnnounceQueueSettings) (sd : Nat) (now : Nat)
    (hq : reg key = some q)
    (hpol : (mergeAnnounceQueue q settings sd).dropPolicy = QueueDropPolicy.new)
    (hcap : 0 < (mergeAnnounceQueue q settings sd).cap)
    (hlen : (mergeAnnounceQueue q settings sd).cap ≤ (q.items.length : ℤ)) :
    (enqueueAnnounce normCtx ctxKey reg key item settings sd now).accepted = false ∧
    ∃ q', (enqueueAnnounce normCtx ctxKey reg key item settings sd now).reg key = some q' ∧
      q'.items = q.items ∧ q'.draining = true ∧ q'.lastEnqueuedAt = now ∧
      q'.droppedCount = q.droppedCount ∧ q'.summaryLines = q.summaryLines ∧
      q'.mode = settings.mode ∧ q'.send = sd := by
  have hout : enqueueAnnounce normCtx ctxKey reg key item settings sd now =
      ⟨scheduleAnnounceDrain
        (updateReg reg key { mergeAnnounceQueue q settings sd with lastEnqueuedAt := now })
        key, false⟩ := by
    unfold enqueueAnnounce
    rw [hq]
    simp only [getAnnounceQueue]
    rw [if_pos ⟨hcap, hlen⟩, if_pos hpol]
  set q1 : AnnounceQueueState :=
    { mergeAnnounceQueue q settings sd with lastEnqueuedAt := now } with hq1
  rw [hout]
  refine ⟨rfl, ?_⟩
  by_cases hd : q.draining = true
  · have hsch : scheduleAnnounceDrain (updateReg reg key q1) key = updateReg reg key q1 :=
      schedule_noop_of_draining _ _ q1 (updateReg_self _ _ _) hd
    exact ⟨q1, by rw [hsch]; exact updateReg_self _ _ _, rfl, hd, rfl, rfl, rfl, rfl, rfl⟩
  · have hd' : q1.draining = false := by
      show q.draining = false
      simpa using hd
    have hsch := schedule_activates (updateReg reg key q1) key q1
      (updateReg_self reg key q1) hd'
    exact ⟨{ q1 with draining := true, forceIndividualCollect := false },
      by rw [hsch]; exact updateReg_self _ _ _, rfl, rfl, rfl, rfl, rfl, rfl, rfl⟩

theorem enqueue_reject_new_spec_witness :
    (enqueueAnnounce idCtx keyCtx
      (updateReg emptyRegistry "alpha"
        (mkQueueState [mkAnnounceItem "p1" "s1" none none] false false
          QueueMode.individual QueueDropPolicy.new 0 []))
      "alpha" (mkAnnounceItem "p2" "s2" none none)
      ⟨QueueMode.individual, none, some 1, some QueueDropPolicy.new⟩ 4 11).accepted
        = false ∧
    ∃ q', (enqueueAnnounce idCtx keyCtx
      (updateReg emptyRegistry "alpha"
        (mkQueueState [mkAnnounceItem "p1" "s1" none none] false false
          QueueMode.individual QueueDropPolicy.new 0 []))
      "alpha" (mkAnnounceItem "p2" "s2" none none)
      ⟨QueueMode.individual, none, some 1, some QueueDropPolicy.new⟩ 4 11).reg "alpha"
        = some q' ∧
      q'.items = (mkQueueState [mkAnnounceItem "p1" "s1" none none] false false
        QueueMode.individual QueueDropPolicy.new 0 []).items ∧
      q'.draining = true ∧ q'.lastEnqueuedAt = 11 ∧
      q'.droppedCount = (mkQueueState [mkAnnounceItem "p1" "s1" none none] false false
        QueueMode.individual QueueDropPolicy.new 0 []).droppedCount ∧
      q'.summaryLines = (mkQueueState [mkAnnounceItem "p1" "s1" none none] false false
        QueueMode.individual QueueDropPolicy.new 0 []).summaryLines ∧
      q'.mode = QueueMode.individual ∧ q'.send = 4 := by
  exact enqueue_reject_new_spec idCtx keyCtx _ "alpha" _ _ _ 4 11
    (updateReg_self _ _ _) (by decide) (by decide)
    (by simp [mergeAnnounceQueue, mkQueueState]; decide)

/-- C5 counterexample: with droppedCount 1 and one summary line the
returned header line carries a "[Queue overflow] " prefix, not the bare
"Dropped 1 announce due to cap." wording the claim states; and with
droppedCount 1 and no summary lines the returned text contains no
"Summary:" line at all, though the claim requires one. -/
theorem buildSummaryPrompt_counterexample :
    (buildSummaryPrompt (mkQueueState [] true false QueueMode.individual
        QueueDropPolicy.summarize 1 ["first announce"])).1 =
      some "[Queue overflow] Dropped 1 announce due to cap.\nSummary:\n- first announce" ∧
    (buildSummaryPrompt (mkQueueState [] true false QueueMode.individual
        QueueDropPolicy.summarize 1 ["first announce"])).1 ≠
      some "Dropped 1 announce due to cap.\nSummary:\n- first announce" ∧
    (buildSummaryPrompt (mkQueueState [] true false QueueMode.individual
        QueueDropPolicy.summarize 1 [])).1 =
      some "[Queue overflow] Dropped 1 announce due to cap." ∧
    ¬ "Summary:".data <:+:
      (((buildSummaryPrompt (mkQueueState [] true false QueueMode.individual
          QueueDropPolicy.summarize 1 [])).1).getD "").data := by
  exact ⟨by decide, by decide, by decide, by decide⟩

/-- C5 (amended): buildSummaryPrompt returns none, with no side effect,
unless dropPolicy is evict-oldest-and-summarize and droppedCount > 0;
otherwise it returns a header line "[Queue overflow] Dropped N
announce(s) due to cap." with correct singular and plural wording for
N = droppedCount, followed — only when summaryLines is non-empty — by a
"Summary:" line and one bullet per entry of summaryLines in order, and as
a side effect resets droppedCount to 0 and clears summaryLines. -/
theorem buildSummaryPrompt_spec (q : AnnounceQueueState) :
    (¬ (q.dropPolicy = QueueDropPolicy.summarize ∧ 0 < q.droppedCount) →
      buildSummaryPrompt q = (none, q)) ∧
    (q.dropPolicy = QueueDropPolicy.summarize → 0 < q.droppedCount →
      buildSummaryPrompt q =
        (some (joinLines "\n"
          (("[Queue overflow] Dropped " ++ toString q.droppedCount ++ " announce" ++
            (if q.droppedCount = 1 then "" else "s") ++ " due to cap.") ::
            (if q.summaryLines = [] then []
             else "Summary:" :: q.summaryLines.map (fun l => "- " ++ l)))),
         { q with droppedCount := 0, summaryLines := [] })) := by
  constructor
  · intro h
    unfold buildSummaryPrompt buildSummaryPromptLines
    have hcond : q.dropPolicy ≠ QueueDropPolicy.summarize ∨ q.droppedCount = 0 := by
      by_cases h1 : q.dropPolicy = QueueDropPolicy.summarize
      · right
        rcases Nat.eq_zero_or_pos q.droppedCount with h2 | h2
        · exact h2
        · exact absurd ⟨h1, h2⟩ h
      · left
        exact h1
    rw [if_pos hcond]
  · intro h1 h2
    unfold buildSummaryPrompt buildSummaryPromptLines summaryHeaderLine
    have hcond : ¬ (q.dropPolicy ≠ QueueDropPolicy.summarize ∨ q.droppedCount = 0) := by
      simp [h1]
      omega
    rw [if_neg hcond]
    cases hsl : q.summaryLines with
    | nil => simp
    | cons a t => simp

theorem buildSummaryPrompt_spec_witness :
    buildSummaryPrompt (mkQueueState [] false false QueueMode.collect
        QueueDropPolicy.old 3 ["x"]) =
      (none, mkQueueState [] false false QueueMode.collect QueueDropPolicy.old 3 ["x"]) ∧
    buildSummaryPrompt (mkQueueState [] true false QueueMode.individual
        QueueDropPolicy.summarize 2 ["a", "b"]) =
      (some (joinLines "\n"
        (("[Queue overflow] Dropped " ++ toString 2 ++ " announce" ++
          (if 2 = 1 then "" else "s") ++ " due to cap.") ::
          (if (["a", "b"] : List String) = [] then []
           else "Summary:" :: (["a", "b"] : List String).map (fun l => "- " ++ l)))),
       mkQueueState [] true false QueueMode.individual QueueDropPolicy.summarize 0 []) := by
  constructor
  · exact (buildSummaryPrompt_spec _).1 (by decide)
  · exact (buildSummaryPrompt_spec (mkQueueState [] true false QueueMode.individual
      QueueDropPolicy.summarize 2 ["a", "b"])).2 rfl (by decide)

/-- C10: when a drain cycle starts on a collect-mode queue whose items are
empty while summarized drops are pending (and the session is not in forced
individual delivery), the cycle consumes the overflow summary (there was
one to deliver), sends nothing, logs nothing, and removes the registry
entry: the notice of the dropped items is silently lost. -/
theorem collect_drain_lost_summary_spec
    (reg : Registry) (key : String) (q : AnnounceQueueState) (ok : Bool)
    (hq : reg key = some q) (hdr : q.draining = true)
    (hforce : q.forceIndividualCollect = false) (hmode : q.mode = QueueMode.collect)
    (hitems : q.items = []) (hdrop : 0 < q.droppedCount)
    (hpol : q.dropPolicy = QueueDropPolicy.summarize) :
    ((buildSummaryPrompt { q with items := [] }).1).isSome = true ∧
    (drainCycle reg key ok).sent = [] ∧
    (drainCycle reg key ok).logs = [] ∧
    (drainCycle reg key ok).reg key = none := by
  obtain ⟨items, dr, fc, last, mode, db, cap, pol, dc, sl, sn⟩ := q
  simp only at hdr hforce hmode hitems hdrop hpol
  subst hdr hforce hmode hitems hpol
  have hsum : buildSummaryPromptLines
      ⟨[], true, false, last, QueueMode.collect, db, cap, QueueDropPolicy.summarize, dc, sl, sn⟩ ≠
      none := by
    unfold buildSummaryPromptLines
    rw [if_neg]
    · simp
    · simp
      omega
  have hcc : hasCrossChannelItems ([] : List AnnounceQueueItem) = false := rfl
  refine ⟨?_, ?_, ?_, ?_⟩ <;>
    simp only [drainCycle, hq, buildSummaryPrompt, buildSummaryPromptLines] <;>
    simp only [if_neg (by simp; omega : ¬ (QueueDropPolicy.summarize ≠ QueueDropPolicy.summarize ∨ dc = 0))] <;>
    simp [drainCycle, hq, finalizeDrainPass, updateReg_self, eraseQueue_self, hdrop, hcc,
      Nat.pos_iff_ne_zero.mp hdrop]

theorem collect_drain_lost_summary_spec_witness :
    ((buildSummaryPrompt { mkQueueState [] true false QueueMode.collect
        QueueDropPolicy.summarize 2 ["lost one", "lost two"] with items := [] }).1).isSome
      = true ∧
    (drainCycle (updateReg emptyRegistry "k"
      (mkQueueState [] true false QueueMode.collect QueueDropPolicy.summarize 2
        ["lost one", "lost two"])) "k" true).sent = [] ∧
    (drainCycle (updateReg emptyRegistry "k"
      (mkQueueState [] true false QueueMode.collect QueueDropPolicy.summarize 2
        ["lost one", "lost two"])) "k" true).logs = [] ∧
    (drainCycle (updateReg emptyRegistry "k"
      (mkQueueState [] true false QueueMode.collect QueueDropPolicy.summarize 2
        ["lost one", "lost two"])) "k" true).reg "k" = none := by
  exact collect_drain_lost_summary_spec _ "k" _ true (updateReg_self _ _ _)
    rfl rfl rfl rfl (by decide) rfl


theorem enqueueAnnounce_shape
    (normCtx : Option DeliveryContext → Option DeliveryContext)
    (ctxKey : Option DeliveryContext → Option String)
    (reg : Registry) (key : String) (item : AnnounceQueueItem)
    (settings : AnnounceQueueSettings) (sd : Nat) (now : Nat) :
    ∃ X : AnnounceQueueState,
      (enqueueAnnounce normCtx ctxKey reg key item settings sd now).reg =
        scheduleAnnounceDrain (updateReg reg key X) key ∧
      X.draining = (getAnnounceQueue (reg key) settings sd).draining ∧
      X.forceIndividualCollect =
        (getAnnounceQueue (reg key) settings sd).forceIndividualCollect := by
  unfold enqueueAnnounce
  set q1 : AnnounceQueueState :=
    { getAnnounceQueue (reg key) settings sd with lastEnqueuedAt := now } with hq1
  by_cases hg : 0 < q1.cap ∧ q1.cap ≤ (q1.items.length : ℤ)
  · rw [if_pos hg]
    by_cases hp : q1.dropPolicy = QueueDropPolicy.new
    · rw [if_pos hp]
      exact ⟨q1, rfl, rfl, rfl⟩
    · rw [if_neg hp]
      by_cases hps : q1.dropPolicy = QueueDropPolicy.summarize
      · simp only [if_pos hps]
        exact ⟨_, rfl, rfl, rfl⟩
      · simp only [if_neg hps]
        exact ⟨_, rfl, rfl, rfl⟩
  · rw [if_neg hg]
    exact ⟨_, rfl, rfl, rfl⟩

/-- C2: in collect mode, detecting the cross-channel condition sends the
head item alone and sets the sticky per-session flag; while the flag is
set every cycle of the session sends exactly the head item, unmerged and
unmodified, whatever the channels of the remaining items; an enqueue
during an active session leaves the flag untouched; and the flag is reset
to false at each idle-to-draining transition. -/
theorem collect_sticky_split_spec
    (normCtx : Option DeliveryContext → Option DeliveryContext)
    (ctxKey : Option DeliveryContext → Option String) :
    (∀ (reg : Registry) (key : String) (q : AnnounceQueueState) next rest,
      reg key = some q → q.draining = true → q.mode = QueueMode.collect →
      q.forceIndividualCollect = false → hasCrossChannelItems q.items = true →
      q.items = next :: rest →
      drainCycle reg key true =
        ⟨updateReg reg key { q with items := rest, forceIndividualCollect := true },
         [next], []⟩) ∧
    (∀ (reg : Registry) (key : String) (q : AnnounceQueueState) next rest,
      reg key = some q → q.draining = true → q.mode = QueueMode.collect →
      q.forceIndividualCollect = true → q.items = next :: rest →
      drainCycle reg key true =
        ⟨updateReg reg key { q with items := rest }, [next], []⟩) ∧
    (∀ (reg : Registry) (key : String) (q : AnnounceQueueState),
      reg key = some q → q.draining = false →
      scheduleAnnounceDrain reg key =
        updateReg reg key { q with draining := true, forceIndividualCollect := false }) ∧
    (∀ (reg : Registry) (key : String) (q : AnnounceQueueState) item settings sd now,
      reg key = some q → q.draining = true →
      ∃ q', (enqueueAnnounce normCtx ctxKey reg key item settings sd now).reg key = some q' ∧
        q'.forceIndividualCollect = q.forceIndividualCollect ∧ q'.draining = true) := by
  refine ⟨?_, ?_, ?_, ?_⟩
  · intro reg key q next rest hq hdr hmode hforce hcross hitems
    obtain ⟨items, dr, fc, last, mode, db, cap, pol, dc, sl, sn⟩ := q
    simp only at hdr hmode hforce hitems
    subst hdr hmode hforce hitems
    simp only at hcross
    simp [drainCycle, hq, hcross, sendStep]
  · intro reg key q next rest hq hdr hmode hforce hitems
    obtain ⟨items, dr, fc, last, mode, db, cap, pol, dc, sl, sn⟩ := q
    simp only at hdr hmode hforce hitems
    subst hdr hmode hforce hitems
    simp [drainCycle, hq, sendStep]
  · intro reg key q hq hdr
    exact schedule_activates reg key q hq hdr
  · intro reg key q item settings sd now hq hdr
    obtain ⟨X, hXreg, hXdr, hXfc⟩ :=
      enqueueAnnounce_shape normCtx ctxKey reg key item settings sd now
    have h1 : (getAnnounceQueue (reg key) settings sd).draining = q.draining := by
      rw [hq]
      rfl
    have h2 : (getAnnounceQueue (reg key) settings sd).forceIndividualCollect =
        q.forceIndividualCollect := by
      rw [hq]
      rfl
    have hXdr' : X.draining = true := by
      rw [hXdr, h1]
      exact hdr
    have hsch := schedule_noop_of_draining (updateReg reg key X) key X
      (updateReg_self _ _ _) hXdr'
    refine ⟨X, ?_, by rw [hXfc, h2], hXdr'⟩
    rw [hXreg, hsch]
    exact updateReg_self _ _ _

theorem collect_sticky_split_spec_witness :
    drainCycle (updateReg emptyRegistry "k"
        (mkQueueState [mkAnnounceItem "p1" "sA" (some "a") (some "a"),
          mkAnnounceItem "p2" "sB" (some "b") (some "b")] true false QueueMode.collect
          QueueDropPolicy.summarize 0 [])) "k" true =
      ⟨updateReg (updateReg emptyRegistry "k"
        (mkQueueState [mkAnnounceItem "p1" "sA" (some "a") (some "a"),
          mkAnnounceItem "p2" "sB" (some "b") (some "b")] true false QueueMode.collect
          QueueDropPolicy.summarize 0 [])) "k"
        { mkQueueState [mkAnnounceItem "p1" "sA" (some "a") (some "a"),
            mkAnnounceItem "p2" "sB" (some "b") (some "b")] true false QueueMode.collect
            QueueDropPolicy.summarize 0 [] with
          items := [mkAnnounceItem "p2" "sB" (some "b") (some "b")]
          forceIndividualCollect := true },
       [mkAnnounceItem "p1" "sA" (some "a") (some "a")], []⟩ ∧
    scheduleAnnounceDrain (updateReg emptyRegistry "j"
        (mkQueueState [mkAnnounceItem "p3" "sC" (some "c") (some "c")] false true
          QueueMode.collect QueueDropPolicy.summarize 0 [])) "j" =
      updateReg (updateReg emptyRegistry "j"
        (mkQueueState [mkAnnounceItem "p3" "sC" (some "c") (some "c")] false true
          QueueMode.collect QueueDropPolicy.summarize 0 [])) "j"
        { mkQueueState [mkAnnounceItem "p3" "sC" (some "c") (some "c")] false true
            QueueMode.collect QueueDropPolicy.summarize 0 [] with
          draining := true
          forceIndividualCollect := false } := by
  constructor
  · exact (collect_sticky_split_spec idCtx keyCtx).1 _ "k" _ _ _
      (updateReg_self _ _ _) rfl rfl rfl (by decide) rfl
  · exact (collect_sticky_split_spec idCtx keyCtx).2.2.1 _ "j" _
      (updateReg_self _ _ _) rfl

theorem drainCycle_logs_cases (reg : Registry) (key : String) (ok : Bool) :
    (drainCycle reg key ok).logs = [] ∨ (drainCycle reg key ok).logs = [drainFailLog key] := by
  unfold drainCycle sendStep
  cases hreg : reg key with
  | none => exact Or.inl rfl
  | some q =>
    dsimp only
    repeat' split
    all_goals simp

/-- C8: a send failure during a drain cycle is caught, never propagated:
the only log line any cycle can emit is the drain-failure line carrying
the key as context; a failing individual-mode send still pops the head
item, which is handed to send once and lost (not re-queued); and when
backlog remains after the failure the entry stays present and scheduled
(draining, fresh session) so remaining items and pending drops are still
processed, while an empty backlog removes the entry. -/
theorem drain_send_failure_spec
    (reg : Registry) (key : String) (q : AnnounceQueueState)
    (next : AnnounceQueueItem) (rest : List AnnounceQueueItem)
    (hq : reg key = some q) (hdr : q.draining = true)
    (hmode : q.mode = QueueMode.individual)
    (hsum : q.dropPolicy ≠ QueueDropPolicy.summarize ∨ q.droppedCount = 0)
    (hitems : q.items = next :: rest) :
    (drainCycle reg key false).sent = [next] ∧
    (drainCycle reg key false).logs = [drainFailLog key] ∧
    ((drainCycle reg key false).reg key = none ↔ (rest = [] ∧ q.droppedCount = 0)) ∧
    ((rest ≠ [] ∨ 0 < q.droppedCount) →
      ∃ q', (drainCycle reg key false).reg key = some q' ∧ q'.items = rest ∧
        q'.draining = true ∧ q'.forceIndividualCollect = false) ∧
    (∀ (reg2 : Registry) (key2 : String) (ok : Bool),
      (drainCycle reg2 key2 ok).logs = [] ∨
      (drainCycle reg2 key2 ok).logs = [drainFailLog key2]) := by
  obtain ⟨items, dr, fc, last, mode, db, cap, pol, dc, sl, sn⟩ := q
  simp only at hdr hmode hitems hsum
  subst hdr hmode hitems
  have hbs : buildSummaryPromptLines
      ⟨next :: rest, true, fc, last, QueueMode.individual, db, cap, pol, dc, sl, sn⟩ = none := by
    unfold buildSummaryPromptLines
    exact if_pos hsum
  have hcyc : drainCycle reg key false =
      ⟨finalizeDrainPass (updateReg reg key
          ⟨rest, true, fc, last, QueueMode.individual, db, cap, pol, dc, sl, sn⟩) key,
        [next], [drainFailLog key]⟩ := by
    simp [drainCycle, hq, buildSummaryPrompt, hbs, sendStep]
  rw [hcyc]
  refine ⟨rfl, rfl, ?_, ?_, fun reg2 key2 ok => drainCycle_logs_cases reg2 key2 ok⟩
  · by_cases hre : rest = [] ∧ dc = 0
    · simp [finalizeDrainPass, updateReg_self, hre, eraseQueue_self]
    · simp only [finalizeDrainPass, updateReg_self]
      rw [if_neg hre]
      simp [updateReg_self, hre]
  · intro hne
    have hre : ¬ (rest = [] ∧ dc = 0) := by
      rcases hne with h | h
      · exact fun hc => h hc.1
      · have h2 : 0 < dc := h
        exact fun hc => by omega
    simp only [finalizeDrainPass, updateReg_self]
    rw [if_neg hre]
    exact ⟨_, updateReg_self _ _ _, rfl, rfl, rfl⟩

theorem drain_send_failure_spec_witness :
    (drainCycle (updateReg emptyRegistry "k"
      (mkQueueState [mkAnnounceItem "first" "sN" none none,
        mkAnnounceItem "later" "sR" none none] true false QueueMode.individual
        QueueDropPolicy.old 0 [])) "k" false).sent = [mkAnnounceItem "first" "sN" none none] ∧
    (drainCycle (updateReg emptyRegistry "k"
      (mkQueueState [mkAnnounceItem "first" "sN" none none,
        mkAnnounceItem "later" "sR" none none] true false QueueMode.individual
        QueueDropPolicy.old 0 [])) "k" false).logs = [drainFailLog "k"] ∧
    ((drainCycle (updateReg emptyRegistry "k"
      (mkQueueState [mkAnnounceItem "first" "sN" none none,
        mkAnnounceItem "later" "sR" none none] true false QueueMode.individual
        QueueDropPolicy.old 0 [])) "k" false).reg "k" = none ↔
      ([mkAnnounceItem "later" "sR" none none] = [] ∧
        (mkQueueState [mkAnnounceItem "first" "sN" none none,
          mkAnnounceItem "later" "sR" none none] true false QueueMode.individual
          QueueDropPolicy.old 0 []).droppedCount = 0)) ∧
    (([mkAnnounceItem "later" "sR" none none] ≠ [] ∨
        0 < (mkQueueState [mkAnnounceItem "first" "sN" none none,
          mkAnnounceItem "later" "sR" none none] true false QueueMode.individual
          QueueDropPolicy.old 0 []).droppedCount) →
      ∃ q', (drainCycle (updateReg emptyRegistry "k"
        (mkQueueState [mkAnnounceItem "first" "sN" none none,
          mkAnnounceItem "later" "sR" none none] true false QueueMode.individual
          QueueDropPolicy.old 0 [])) "k" false).reg "k" = some q' ∧
        q'.items = [mkAnnounceItem "later" "sR" none none] ∧
        q'.draining = true ∧ q'.forceIndividualCollect = false) ∧
    (∀ (reg2 : Registry) (key2 : String) (ok : Bool),
      (drainCycle reg2 key2 ok).logs = [] ∨
      (drainCycle reg2 key2 ok).logs = [drainFailLog key2]) := by
  exact drain_send_failure_spec _ "k" _ _ _ (updateReg_self _ _ _) rfl rfl
    (Or.inl (by decide)) rfl

theorem regPointwise_update (reg : Registry) (key k' : String) (X : AnnounceQueueState)
    (hX : X.draining = true) :
    (updateReg reg key X) k' = reg k' ∨ (updateReg reg key X) k' = none ∨
    (∃ q', (updateReg reg key X) k' = some q' ∧ q'.draining = true) := by
  by_cases h : k' = key
  · subst h
    exact Or.inr (Or.inr ⟨X, updateReg_self _ _ _, hX⟩)
  · exact Or.inl (updateReg_other _ _ _ _ h)

theorem regPointwise_erase (reg : Registry) (key k' : String) :
    (eraseQueue reg key) k' = reg k' ∨ (eraseQueue reg key) k' = none ∨
    (∃ q', (eraseQueue reg key) k' = some q' ∧ q'.draining = true) := by
  by_cases h : k' = key
  · subst h
    exact Or.inr (Or.inl (eraseQueue_self _ _))
  · exact Or.inl (eraseQueue_other _ _ _ h)

theorem regPointwise_finalize (reg : Registry) (key k' : String) :
    (finalizeDrainPass reg key) k' = reg k' ∨ (finalizeDrainPass reg key) k' = none ∨
    (∃ q', (finalizeDrainPass reg key) k' = some q' ∧ q'.draining = true) := by
  unfold finalizeDrainPass
  cases hreg : reg key with
  | none => exact Or.inl rfl
  | some q =>
    dsimp only
    split
    · exact regPointwise_erase reg key k'
    · exact regPointwise_update reg key k' _ rfl

theorem regPointwise_finalize_update (reg : Registry) (key k' : String)
    (X : AnnounceQueueState) (hX : X.draining = true) :
    (finalizeDrainPass (updateReg reg key X) key) k' = reg k' ∨
    (finalizeDrainPass (updateReg reg key X) key) k' = none ∨
    (∃ q', (finalizeDrainPass (updateReg reg key X) key) k' = some q' ∧
      q'.draining = true) := by
  rcases regPointwise_finalize (updateReg reg key X) key k' with h | h | h
  · rw [h]
    exact regPointwise_update reg key k' X hX
  · exact Or.inr (Or.inl h)
  · exact Or.inr (Or.inr h)

theorem regPointwise_schedule (reg : Registry) (key k' : String) :
    (scheduleAnnounceDrain reg key) k' = reg k' ∨
    (∃ q', (scheduleAnnounceDrain reg key) k' = some q' ∧ q'.draining = true) := by
  unfold scheduleAnnounceDrain
  cases hreg : reg key with
  | none => exact Or.inl rfl
  | some q =>
    dsimp only
    split
    · exact Or.inl rfl
    · by_cases h : k' = key
      · subst h
        exact Or.inr ⟨_, updateReg_self _ _ _, rfl⟩
      · exact Or.inl (updateReg_other _ _ _ _ h)


theorem buildSummaryPrompt_snd_draining (q : AnnounceQueueState) :
    (buildSummaryPrompt q).2.draining = q.draining := by
  unfold buildSummaryPrompt
  split <;> rfl

theorem drainCycle_pointwise (reg : Registry) (key k' : String) (ok : Bool) :
    (drainCycle reg key ok).reg k' = reg k' ∨ (drainCycle reg key ok).reg k' = none ∨
    (∃ q', (drainCycle reg key ok).reg k' = some q' ∧ q'.draining = true) := by
  unfold drainCycle sendStep
  cases hreg : reg key with
  | none => exact Or.inl rfl
  | some q =>
    obtain ⟨items, dr, fc, last, mode, db, cap, pol, dc, sl, sn⟩ := q
    dsimp only
    by_cases hdr : dr = false
    · subst hdr
      rw [if_pos rfl]
      exact Or.inl rfl
    · have hdr' : dr = true := by simpa using hdr
      subst hdr'
      rw [if_neg (by simp)]
      split
      · exact regPointwise_erase reg key k'
      · cases mode with
        | collect =>
          try dsimp only
          cases fc with
          | true =>
            rw [if_pos rfl]
            cases items with
            | nil => exact regPointwise_finalize reg key k'
            | cons a t =>
              try dsimp only
              cases ok with
              | true =>
                rw [if_pos rfl]
                exact regPointwise_update reg key k' _ rfl
              | false =>
                rw [if_neg (by simp)]
                exact regPointwise_finalize_update reg key k' _ rfl
          | false =>
            rw [if_neg (by simp)]
            split
            · cases items with
              | nil => exact regPointwise_finalize reg key k'
              | cons a t =>
                try dsimp only
                cases ok with
                | true =>
                  rw [if_pos rfl]
                  exact regPointwise_update reg key k' _ rfl
                | false =>
                  rw [if_neg (by simp)]
                  exact regPointwise_finalize_update reg key k' _ rfl
            · try dsimp only
              split
              · exact regPointwise_finalize_update reg key k' _
                  (by simp [buildSummaryPrompt_snd_draining])
              · cases ok with
                | true =>
                  rw [if_pos rfl]
                  exact regPointwise_update reg key k' _
                    (by simp [buildSummaryPrompt_snd_draining])
                | false =>
                  rw [if_neg (by simp)]
                  exact regPointwise_finalize_update reg key k' _
                    (by simp [buildSummaryPrompt_snd_draining])
        | individual =>
          try dsimp only
          split
          · split
            · exact regPointwise_finalize_update reg key k' _
                (by simp [buildSummaryPrompt_snd_draining])
            · cases ok with
              | true =>
                rw [if_pos rfl]
                exact regPointwise_update reg key k' _
                  (by simp [buildSummaryPrompt_snd_draining])
              | false =>
                rw [if_neg (by simp)]
                exact regPointwise_finalize_update reg key k' _
                  (by simp [buildSummaryPrompt_snd_draining])
          · cases items with
            | nil => exact regPointwise_finalize reg key k'
            | cons a t =>
              try dsimp only
              cases ok with
              | true =>
                rw [if_pos rfl]
                exact regPointwise_update reg key k' _ rfl
              | false =>
                rw [if_neg (by simp)]
                exact regPointwise_finalize_update reg key k' _ rfl

theorem regPointwise_schedule_update (reg : Registry) (key k' : String)
    (X : AnnounceQueueState) :
    (scheduleAnnounceDrain (updateReg reg key X) key) k' = reg k' ∨
    (∃ q', (scheduleAnnounceDrain (updateReg reg key X) key) k' = some q' ∧
      q'.draining = true) := by
  unfold scheduleAnnounceDrain
  rw [updateReg_self]
  dsimp only
  by_cases hX : X.draining = true
  · rw [if_pos hX]
    by_cases h : k' = key
    · subst h
      exact Or.inr ⟨X, updateReg_self _ _ _, hX⟩
    · exact Or.inl (updateReg_other _ _ _ _ h)
  · rw [if_neg hX]
    by_cases h : k' = key
    · subst h
      exact Or.inr ⟨_, updateReg_self _ _ _, rfl⟩
    · rw [updateReg_other _ _ _ _ h]
      exact Or.inl (updateReg_other _ _ _ _ h)

theorem enqueue_pointwise (normCtx : Option DeliveryContext → Option DeliveryContext)
    (ctxKey : Option DeliveryContext → Option String)
    (reg : Registry) (key : String) (item : AnnounceQueueItem)
    (settings : AnnounceQueueSettings) (sd : Nat) (now : Nat) (k' : String) :
    (enqueueAnnounce normCtx ctxKey reg key item settings sd now).reg k' = reg k' ∨
    (∃ q', (enqueueAnnounce normCtx ctxKey reg key item settings sd now).reg k' = some q' ∧
      q'.draining = true) := by
  obtain ⟨X, hXreg, -, -⟩ :=
    enqueueAnnounce_shape normCtx ctxKey reg key item settings sd now
  rw [hXreg]
  exact regPointwise_schedule_update reg key k' X

/-- C9: every registry entry has pending items, pending drops, or an
in-flight drain (this invariant holds for the empty registry and is
preserved by every enqueue and every drain-loop iteration); a drain pass
observing an empty backlog removes the entry; and the next enqueue for a
missing key recreates a fresh entry from the settings supplied at that
call, holding exactly the new origin-enriched item and an active drain. -/
theorem registry_lifecycle_spec
    (normCtx : Option DeliveryContext → Option DeliveryContext)
    (ctxKey : Option DeliveryContext → Option String) :
    RegInv emptyRegistry ∧
    (∀ (reg : Registry) (e : QueueEvent), RegInv reg →
      RegInv (stepEvent normCtx ctxKey reg e)) ∧
    (∀ (reg : Registry) (key : String) (q : AnnounceQueueState) (ok : Bool),
      reg key = some q → q.draining = true → q.items = [] → q.droppedCount = 0 →
      (drainCycle reg key ok).reg key = none) ∧
    (∀ (reg : Registry) (key : String) (item : AnnounceQueueItem)
      (settings : AnnounceQueueSettings) (sd : Nat) (now : Nat), reg key = none →
      ∃ q', (enqueueAnnounce normCtx ctxKey reg key item settings sd now).reg key = some q' ∧
        q'.items = [pushedItem normCtx ctxKey item] ∧ q'.draining = true ∧
        q'.mode = settings.mode ∧
        q'.dropPolicy = settings.dropPolicy.getD QueueDropPolicy.summarize ∧
        q'.lastEnqueuedAt = now ∧ q'.send = sd ∧ q'.droppedCount = 0 ∧
        q'.summaryLines = []) := by
  refine ⟨?_, ?_, ?_, ?_⟩
  · intro key q hq
    exact absurd hq (by simp [emptyRegistry])
  · intro reg e hinv key q hq
    cases e with
    | enq k2 item settings sd now =>
      simp only [stepEvent] at hq
      rcases enqueue_pointwise normCtx ctxKey reg k2 item settings sd now key with h | ⟨q2, h2, hd2⟩
      · exact hinv key q (by rw [← h]; exact hq)
      · have : q = q2 := by
          rw [hq] at h2
          exact Option.some.inj h2
        subst this
        exact Or.inr (Or.inr hd2)
    | cycle k2 ok =>
      simp only [stepEvent] at hq
      rcases drainCycle_pointwise reg k2 key ok with h | h | ⟨q2, h2, hd2⟩
      · exact hinv key q (by rw [← h]; exact hq)
      · rw [hq] at h
        exact absurd h (by simp)
      · have : q = q2 := by
          rw [hq] at h2
          exact Option.some.inj h2
        subst this
        exact Or.inr (Or.inr hd2)
  · intro reg key q ok hq hdr hitems hdc
    obtain ⟨items, dr, fc, last, mode, db, cap, pol, dc, sl, sn⟩ := q
    simp only at hdr hitems hdc
    subst hdr hitems hdc
    simp [drainCycle, hq, eraseQueue_self]
  · intro reg key item settings sd now hnone
    have hsh : enqueueAnnounce normCtx ctxKey reg key item settings sd now =
        ⟨scheduleAnnounceDrain (updateReg reg key
          (pushItem normCtx ctxKey
            { createdAnnounceQueue settings sd with lastEnqueuedAt := now } item)) key,
         true⟩ := by
      unfold enqueueAnnounce
      rw [hnone]
      simp only [getAnnounceQueue]
      rw [if_neg ?hg]
      case hg =>
        rintro ⟨h1, h2⟩
        simp [createdAnnounceQueue] at h1 h2
        omega
    rw [hsh]
    have hdr : (pushItem normCtx ctxKey
        { createdAnnounceQueue settings sd with lastEnqueuedAt := now } item).draining
          = false := rfl
    rw [schedule_activates _ _ _ (updateReg_self _ _ _) hdr]
    refine ⟨_, updateReg_self _ _ _, ?_, rfl, rfl, rfl, rfl, rfl, rfl, rfl⟩
    simp [pushItem, pushedItem, createdAnnounceQueue]

theorem registry_lifecycle_spec_witness :
    RegInv (stepEvent idCtx keyCtx emptyRegistry
      (QueueEvent.enq "k" (mkAnnounceItem "p" "s" none none)
        ⟨QueueMode.collect, none, none, none⟩ 7 1)) ∧
    (drainCycle (updateReg emptyRegistry "k"
      (mkQueueState [] true false QueueMode.collect QueueDropPolicy.summarize 0 []))
      "k" true).reg "k" = none ∧
    ∃ q', (enqueueAnnounce idCtx keyCtx emptyRegistry "k" (mkAnnounceItem "p" "s" none none)
        ⟨QueueMode.collect, none, none, none⟩ 7 1).reg "k" = some q' ∧
      q'.items = [pushedItem idCtx keyCtx (mkAnnounceItem "p" "s" none none)] ∧
      q'.draining = true ∧ q'.mode = QueueMode.collect ∧
      q'.dropPolicy = (none : Option QueueDropPolicy).getD QueueDropPolicy.summarize ∧
      q'.lastEnqueuedAt = 1 ∧ q'.send = 7 ∧ q'.droppedCount = 0 ∧ q'.summaryLines = [] := by
  refine ⟨?_, ?_, ?_⟩
  · exact (registry_lifecycle_spec idCtx keyCtx).2.1 emptyRegistry _
      (registry_lifecycle_spec idCtx keyCtx).1
  · exact (registry_lifecycle_spec idCtx keyCtx).2.2.1 _ "k" _ true
      (updateReg_self _ _ _) rfl rfl rfl
  · exact (registry_lifecycle_spec idCtx keyCtx).2.2.2 emptyRegistry "k" _ _ 7 1 rfl

theorem insertKeyOnce_mem (x k : String) (keys : List String) :
    x ∈ insertKeyOnce k keys ↔ x ∈ keys ∨ x = k := by
  unfold insertKeyOnce
  by_cases h : k ∈ keys
  · rw [if_pos h]
    constructor
    · exact Or.inl
    · rintro (hx | rfl)
      · exact hx
      · exact h
  · rw [if_neg h]
    simp

theorem insertKeyOnce_nodup (k : String) (keys : List String) (h : keys.Nodup) :
    (insertKeyOnce k keys).Nodup := by
  unfold insertKeyOnce
  by_cases hk : k ∈ keys
  · rw [if_pos hk]
    exact h
  · rw [if_neg hk]
    simp [List.nodup_append, h, hk]

theorem crossKeys_mem :
    ∀ (items : List AnnounceQueueItem) (keys : List String) (x : String),
      x ∈ crossKeys items keys ↔
        x ∈ keys ∨ ∃ i ∈ items, i.origin ≠ none ∧ i.originKey = some x := by
  intro items
  induction items with
  | nil =>
    intro keys x
    simp [crossKeys]
  | cons a rest ih =>
    intro keys x
    obtain ⟨p, sl, ea, sk, og, okey⟩ := a
    cases og with
    | none =>
      rw [show crossKeys (⟨p, sl, ea, sk, none, okey⟩ :: rest) keys =
          crossKeys rest keys from rfl, ih]
      simp
    | some o =>
      cases okey with
      | none =>
        rw [show crossKeys (⟨p, sl, ea, sk, some o, none⟩ :: rest) keys =
            crossKeys rest keys from rfl, ih]
        simp
      | some k =>
        rw [show crossKeys (⟨p, sl, ea, sk, some o, some k⟩ :: rest) keys =
            crossKeys rest (insertKeyOnce k keys) from rfl, ih, insertKeyOnce_mem]
        constructor
        · rintro ((hx | rfl) | hx)
          · exact Or.inl hx
          · exact Or.inr ⟨⟨p, sl, ea, sk, some o, some x⟩, List.mem_cons_self _ _,
              by simp, rfl⟩
          · obtain ⟨i, hi, ho, hk2⟩ := hx
            exact Or.inr ⟨i, List.mem_cons_of_mem _ hi, ho, hk2⟩
        · rintro (hx | ⟨i, hi, ho, hk2⟩)
          · exact Or.inl (Or.inl hx)
          · rcases List.mem_cons.mp hi with rfl | hi'
            · simp only at hk2
              exact Or.inl (Or.inr (Option.some.inj hk2).symm)
            · exact Or.inr ⟨i, hi', ho, hk2⟩

theorem crossKeys_nodup :
    ∀ (items : List AnnounceQueueItem) (keys : List String), keys.Nodup →
      (crossKeys items keys).Nodup := by
  intro items
  induction items with
  | nil =>
    intro keys h
    exact h
  | cons a rest ih =>
    intro keys h
    obtain ⟨p, sl, ea, sk, og, okey⟩ := a
    cases og with
    | none => exact ih keys h
    | some o =>
      cases okey with
      | none => exact ih keys h
      | some k => exact ih _ (insertKeyOnce_nodup k keys h)

theorem crossLoop_true_of_badkey :
    ∀ (items : List AnnounceQueueItem) (keys : List String) (unk : Bool),
      (∃ i ∈ items, i.origin ≠ none ∧ originKeyFalsy i) →
      hasCrossChannelLoop items keys unk = true := by
  intro items
  induction items with
  | nil =>
    intro keys unk h
    obtain ⟨i, hi, -⟩ := h
    exact absurd hi (List.not_mem_nil i)
  | cons a rest ih =>
    intro keys unk h
    obtain ⟨i, hi, ho, hf⟩ := h
    rcases List.mem_cons.mp hi with rfl | hi'
    · obtain ⟨p, sl, ea, sk, og, okey⟩ := i
      cases og with
      | none => exact absurd rfl ho
      | some o =>
        cases okey with
        | none => rfl
        | some k =>
          rcases hf with hf | hf
          · exact absurd hf (by simp)
          · have hk : k = "" := by
              simp only at hf
              exact Option.some.inj hf
            simp [hasCrossChannelLoop, hk]
    · obtain ⟨p, sl, ea, sk, og, okey⟩ := a
      cases og with
      | none => exact ih keys true ⟨i, hi', ho, hf⟩
      | some o =>
        cases okey with
        | none => rfl
        | some k =>
          by_cases hk : k = ""
          · simp [hasCrossChannelLoop, hk]
          · rw [show hasCrossChannelLoop (⟨p, sl, ea, sk, some o, some k⟩ :: rest) keys unk =
                if k = "" then true
                else hasCrossChannelLoop rest (insertKeyOnce k keys) unk from rfl,
              if_neg hk]
            exact ih _ unk ⟨i, hi', ho, hf⟩

theorem crossLoop_eq_of_clean :
    ∀ (items : List AnnounceQueueItem) (keys : List String) (unk : Bool),
      (∀ i ∈ items, i.origin ≠ none → ¬ originKeyFalsy i) →
      hasCrossChannelLoop items keys unk =
        (if (crossKeys items keys).length = 0 then false
         else if (unk || items.any fun i => i.origin.isNone) then true
         else decide (1 < (crossKeys items keys).length)) := by
  intro items
  induction items with
  | nil =>
    intro keys unk h
    cases unk <;> simp [hasCrossChannelLoop, crossKeys]
  | cons a rest ih =>
    intro keys unk h
    have hres : ∀ i ∈ rest, i.origin ≠ none → ¬ originKeyFalsy i :=
      fun i hi => h i (List.mem_cons_of_mem a hi)
    obtain ⟨p, sl, ea, sk, og, okey⟩ := a
    cases og with
    | none =>
      rw [show hasCrossChannelLoop (⟨p, sl, ea, sk, none, okey⟩ :: rest) keys unk =
          hasCrossChannelLoop rest keys true from rfl, ih keys true hres]
      rw [show crossKeys (⟨p, sl, ea, sk, none, okey⟩ :: rest) keys =
          crossKeys rest keys from rfl]
      simp
    | some o =>
      have hcl := h ⟨p, sl, ea, sk, some o, okey⟩ (List.mem_cons_self _ _) (by simp)
      cases okey with
      | none => exact absurd (Or.inl rfl) hcl
      | some k =>
        have hk : k ≠ "" := by
          intro hk0
          exact hcl (Or.inr (by rw [hk0]))
        rw [show hasCrossChannelLoop (⟨p, sl, ea, sk, some o, some k⟩ :: rest) keys unk =
            if k = "" then true
            else hasCrossChannelLoop rest (insertKeyOnce k keys) unk from rfl,
          if_neg hk, ih _ unk hres]
        rw [show crossKeys (⟨p, sl, ea, sk, some o, some k⟩ :: rest) keys =
            crossKeys rest (insertKeyOnce k keys) from rfl]
        simp

theorem two_mem_of_nodup_one_lt (l : List String) (hnd : l.Nodup) (hl : 1 < l.length) :
    ∃ x ∈ l, ∃ y ∈ l, x ≠ y := by
  match l with
  | [] => simp at hl
  | [a] => simp at hl
  | a :: b :: t =>
    have hab : a ≠ b := by
      have := List.nodup_cons.mp hnd
      intro hEq
      exact this.1 (hEq ▸ List.mem_cons_self b t)
    exact ⟨a, List.mem_cons_self _ _, b, List.mem_cons_of_mem _ (List.mem_cons_self _ _), hab⟩

theorem one_lt_length_of_two_mem (l : List String) (x y : String)
    (hx : x ∈ l) (hy : y ∈ l) (hxy : x ≠ y) : 1 < l.length := by
  match l with
  | [] => exact absurd hx (List.not_mem_nil x)
  | [a] =>
    rw [List.mem_singleton] at hx hy
    exact absurd (hx.trans hy.symm) hxy
  | a :: b :: t => simp [List.length_cons]

/-- C6: on well-formed item lists (an item carrying an originKey also
carries an origin, as originKey is derived from origin), the
cross-channel check is true exactly when (a) two items carry distinct
non-empty origin keys, or (b) some item has an origin but no derivable
origin key while the list is non-empty, or (c) origin-bearing and
origin-less items are mixed; in particular it is false when all items
share one non-empty origin key and when no item has an origin. -/
theorem hasCrossChannelItems_spec (items : List AnnounceQueueItem)
    (hwf : ∀ i ∈ items, i.originKey ≠ none → i.origin ≠ none) :
    (hasCrossChannelItems items = true ↔ specCross items) ∧
    (∀ k, k ≠ "" → (∀ i ∈ items, ∃ o, i.origin = some o ∧ i.originKey = some k) →
      hasCrossChannelItems items = false) ∧
    ((∀ i ∈ items, i.origin = none) → hasCrossChannelItems items = false) := by
  refine ⟨?_, ?_, ?_⟩
  · by_cases hbad : ∃ i ∈ items, i.origin ≠ none ∧ originKeyFalsy i
    · constructor
      · intro _
        obtain ⟨i, hi, h⟩ := hbad
        exact Or.inr (Or.inl ⟨⟨i, hi, h⟩, List.ne_nil_of_mem hi⟩)
      · intro _
        exact crossLoop_true_of_badkey items [] false hbad
    · have hclean : ∀ i ∈ items, i.origin ≠ none → ¬ originKeyFalsy i := by
        intro i hi ho hf
        exact hbad ⟨i, hi, ho, hf⟩
      rw [show hasCrossChannelItems items = hasCrossChannelLoop items [] false from rfl,
        crossLoop_eq_of_clean items [] false hclean]
      constructor
      · intro h
        by_cases hk0 : (crossKeys items []).length = 0
        · rw [if_pos hk0] at h
          exact absurd h (by simp)
        · rw [if_neg hk0] at h
          have hKne : crossKeys items [] ≠ [] := by
            intro hc
            exact hk0 (by rw [hc]; rfl)
          obtain ⟨x, hxK⟩ := List.exists_mem_of_ne_nil _ hKne
          obtain ⟨i1, hi1, ho1, hk1⟩ :=
            ((crossKeys_mem items [] x).mp hxK).resolve_left (List.not_mem_nil x)
          by_cases hu : (false || items.any fun i => i.origin.isNone) = true
          · simp only [Bool.false_or, List.any_eq_true] at hu
            obtain ⟨j, hj, hjn⟩ := hu
            exact Or.inr (Or.inr ⟨⟨i1, hi1, ho1⟩,
              ⟨j, hj, Option.isNone_iff_eq_none.mp hjn⟩⟩)
          · rw [if_neg hu] at h
            have hlt : 1 < (crossKeys items []).length := of_decide_eq_true h
            obtain ⟨x1, hx1, y1, hy1, hxy⟩ :=
              two_mem_of_nodup_one_lt _ (crossKeys_nodup items [] List.nodup_nil) hlt
            obtain ⟨i, hi, hio, hik⟩ :=
              ((crossKeys_mem items [] x1).mp hx1).resolve_left (List.not_mem_nil x1)
            obtain ⟨j, hj, hjo, hjk⟩ :=
              ((crossKeys_mem items [] y1).mp hy1).resolve_left (List.not_mem_nil y1)
            have hxne : x1 ≠ "" := by
              intro hx0
              exact hclean i hi hio (Or.inr (by rw [hik, hx0]))
            have hyne : y1 ≠ "" := by
              intro hy0
              exact hclean j hj hjo (Or.inr (by rw [hjk, hy0]))
            exact Or.inl ⟨i, hi, j, hj, x1, y1, hik, hjk, hxne, hyne, hxy⟩
      · intro hs
        rcases hs with ⟨i, hi, j, hj, ki, kj, hki, hkj, hki0, hkj0, hij⟩ |
          ⟨⟨i, hi, ho, hf⟩, -⟩ | ⟨⟨i, hi, ho⟩, ⟨j, hj, hjn⟩⟩
        · have hio : i.origin ≠ none := hwf i hi (by rw [hki]; simp)
          have hjo : j.origin ≠ none := hwf j hj (by rw [hkj]; simp)
          have hmi : ki ∈ crossKeys items [] :=
            (crossKeys_mem items [] ki).mpr (Or.inr ⟨i, hi, hio, hki⟩)
          have hmj : kj ∈ crossKeys items [] :=
            (crossKeys_mem items [] kj).mpr (Or.inr ⟨j, hj, hjo, hkj⟩)
          have hlt := one_lt_length_of_two_mem _ ki kj hmi hmj hij
          have hk0 : ¬ (crossKeys items []).length = 0 := by omega
          rw [if_neg hk0]
          by_cases hu : (false || items.any fun i => i.origin.isNone) = true
          · rw [if_pos hu]
          · rw [if_neg hu]
            exact decide_eq_true hlt
        · exact absurd ⟨i, hi, ho, hf⟩ hbad
        · obtain ⟨k, hk, hk0⟩ : ∃ k, i.originKey = some k ∧ k ≠ "" := by
            cases hok : i.originKey with
            | none => exact absurd (Or.inl hok) (hclean i hi ho)
            | some k =>
              refine ⟨k, rfl, ?_⟩
              intro hkk
              exact hclean i hi ho (Or.inr (by rw [hok, hkk]))
          have hm : k ∈ crossKeys items [] :=
            (crossKeys_mem _ _ _).mpr (Or.inr ⟨i, hi, ho, hk⟩)
          have hk0' : ¬ (crossKeys items []).length = 0 := by
            intro hc
            rw [List.length_eq_zero] at hc
            rw [hc] at hm
            exact List.not_mem_nil _ hm
          rw [if_neg hk0', if_pos ?hany]
          case hany =>
            simp only [Bool.false_or, List.any_eq_true]
            exact ⟨j, hj, by rw [hjn]; rfl⟩
  · intro k hk hall
    have hclean : ∀ i ∈ items, i.origin ≠ none → ¬ originKeyFalsy i := by
      intro i hi ho hf
      obtain ⟨o, hio, hik⟩ := hall i hi
      rcases hf with hf | hf
      · rw [hik] at hf
        exact absurd hf (by simp)
      · rw [hik] at hf
        exact hk (Option.some.inj hf)
    rw [show hasCrossChannelItems items = hasCrossChannelLoop items [] false from rfl,
      crossLoop_eq_of_clean items [] false hclean]
    have hsub : ∀ x ∈ crossKeys items [], x = k := by
      intro x hx
      obtain ⟨i, hi, ho, hik⟩ :=
        ((crossKeys_mem items [] x).mp hx).resolve_left (List.not_mem_nil x)
      obtain ⟨o, hio, hik2⟩ := hall i hi
      rw [hik2] at hik
      exact (Option.some.inj hik).symm
    have hnd := crossKeys_nodup items [] List.nodup_nil
    have hlen : (crossKeys items []).length ≤ 1 := by
      by_contra hlen
      push_neg at hlen
      obtain ⟨x, hx, y, hy, hxy⟩ := two_mem_of_nodup_one_lt _ hnd (by omega)
      exact hxy ((hsub x hx).trans (hsub y hy).symm)
    have hnou : (items.any fun i => i.origin.isNone) = false := by
      rw [List.any_eq_false]
      intro i hi
      obtain ⟨o, hio, -⟩ := hall i hi
      rw [hio]
      simp
    by_cases hk0 : (crossKeys items []).length = 0
    · rw [if_pos hk0]
    · rw [if_neg hk0, hnou]
      have h1 : (crossKeys items []).length = 1 := by omega
      simp [h1]
  · intro hall
    have hclean : ∀ i ∈ items, i.origin ≠ none → ¬ originKeyFalsy i := by
      intro i hi ho
      exact absurd (hall i hi) ho
    rw [show hasCrossChannelItems items = hasCrossChannelLoop items [] false from rfl,
      crossLoop_eq_of_clean items [] false hclean]
    have hK : crossKeys items [] = [] := by
      by_contra hc
      obtain ⟨x, hx⟩ := List.exists_mem_of_ne_nil _ hc
      obtain ⟨i, hi, ho, -⟩ :=
        ((crossKeys_mem items [] x).mp hx).resolve_left (List.not_mem_nil x)
      exact ho (hall i hi)
    rw [hK]
    simp

theorem hasCrossChannelItems_spec_witness :
    (hasCrossChannelItems [mkAnnounceItem "p" "s" (some "a") (some "a"),
        mkAnnounceItem "q" "t" (some "b") (some "b")] = true ↔
      specCross [mkAnnounceItem "p" "s" (some "a") (some "a"),
        mkAnnounceItem "q" "t" (some "b") (some "b")]) ∧
    (∀ k, k ≠ "" →
      (∀ i ∈ [mkAnnounceItem "p" "s" (some "a") (some "a"),
          mkAnnounceItem "q" "t" (some "b") (some "b")],
        ∃ o, i.origin = some o ∧ i.originKey = some k) →
      hasCrossChannelItems [mkAnnounceItem "p" "s" (some "a") (some "a"),
        mkAnnounceItem "q" "t" (some "b") (some "b")] = false) ∧
    ((∀ i ∈ [mkAnnounceItem "p" "s" (some "a") (some "a"),
        mkAnnounceItem "q" "t" (some "b") (some "b")], i.origin = none) →
      hasCrossChannelItems [mkAnnounceItem "p" "s" (some "a") (some "a"),
        mkAnnounceItem "q" "t" (some "b") (some "b")] = false) := by
  exact hasCrossChannelItems_spec _ (by decide)

theorem str_data_append (s t : String) : (s ++ t).data = s.data ++ t.data := by
  cases s
  cases t
  rfl

theorem strExt {s t : String} (h : s.data = t.data) : s = t := by
  cases s
  cases t
  exact congrArg String.mk h

theorem updateReg_updateReg (reg : Registry) (key : String)
    (a b : AnnounceQueueState) :
    updateReg (updateReg reg key a) key b = updateReg reg key b := by
  funext k
  unfold updateReg
  by_cases h : k = key <;> simp [h]

theorem dropWhile_eq_self_of_head (p : Char → Bool) (l : List Char)
    (h : ∀ c, l.head? = some c → p c = false) : l.dropWhile p = l := by
  cases l with
  | nil => rfl
  | cons a t =>
    have ha : ¬ p a = true := by simp [h a rfl]
    rw [List.dropWhile_cons_of_neg ha]

theorem head_not_of_dropWhile_eq_self (p : Char → Bool) (a : Char) (t : List Char)
    (h : (a :: t).dropWhile p = a :: t) : p a = false := by
  by_cases hp : p a = true
  · rw [List.dropWhile_cons_of_pos hp] at h
    have hlen := congrArg List.length h
    have hle := (t.dropWhile_suffix p).length_le
    simp [List.length_cons] at hlen
    omega
  · simpa using hp

theorem jsTrimList_eq_self_of_clean (l : List Char)
    (hh : ∀ c, l.head? = some c → isJsWs c = false)
    (hl : ∀ c, l.getLast? = some c → isJsWs c = false) : jsTrimList l = l := by
  unfold jsTrimList
  rw [dropWhile_eq_self_of_head _ _ hh]
  have hr : ∀ c, l.reverse.head? = some c → isJsWs c = false := by
    intro c hc
    rw [List.head?_reverse] at hc
    exact hl c hc
  rw [dropWhile_eq_self_of_head _ _ hr, List.reverse_reverse]

theorem trimStable_parts (l : List Char) (h : jsTrimList l = l) :
    l.dropWhile isJsWs = l ∧ l.reverse.dropWhile isJsWs = l.reverse := by
  unfold jsTrimList at h
  have h1 : ((l.dropWhile isJsWs).reverse.dropWhile isJsWs).length ≤
      (l.dropWhile isJsWs).length := by
    calc ((l.dropWhile isJsWs).reverse.dropWhile isJsWs).length
        ≤ (l.dropWhile isJsWs).reverse.length :=
          ((l.dropWhile isJsWs).reverse.dropWhile_suffix isJsWs).length_le
    _ = (l.dropWhile isJsWs).length := List.length_reverse _
  have h2 : (l.dropWhile isJsWs).length ≤ l.length :=
    (l.dropWhile_suffix isJsWs).length_le
  have h3 := congrArg List.length h
  rw [List.length_reverse] at h3
  have hrlen : (l.dropWhile isJsWs).length = l.length := by omega
  have hre : l.dropWhile isJsWs = l :=
    (l.dropWhile_suffix isJsWs).eq_of_length hrlen
  refine ⟨hre, ?_⟩
  rw [hre] at h
  have h4 := congrArg List.reverse h
  rw [List.reverse_reverse] at h4
  exact h4

theorem jsTrim_append_prefix (pre p : String) (a : Char)
    (hpre : pre.data.head? = some a) (ha : isJsWs a = false)
    (hp : jsTrim p = p) (hne : p ≠ "") :
    jsTrim (pre ++ p) = pre ++ p := by
  have hpd : jsTrimList p.data = p.data := congrArg String.data hp
  obtain ⟨h1, h2⟩ := trimStable_parts p.data hpd
  have hpne : p.data ≠ [] := by
    intro hc
    exact hne (strExt (by rw [hc]))
  apply strExt
  show jsTrimList (pre ++ p).data = (pre ++ p).data
  rw [str_data_append]
  apply jsTrimList_eq_self_of_clean
  · intro c hc
    rw [List.head?_append] at hc
    rw [hpre] at hc
    have : a = c := by
      simpa [Option.or] using hc
    rw [← this]
    exact ha
  · intro c hc
    rw [List.getLast?_append] at hc
    cases hplast : p.data.getLast? with
    | none =>
      rw [List.getLast?_eq_none_iff] at hplast
      exact absurd hplast hpne
    | some c0 =>
      rw [hplast] at hc
      have hcc : c0 = c := by
        simpa [Option.or] using hc
      have hrev : p.data.reverse.head? = some c0 := by
        rw [List.head?_reverse, hplast]
      cases hrd : p.data.reverse with
      | nil =>
        rw [hrd] at hrev
        exact absurd hrev (by simp)
      | cons b bs =>
        rw [hrd] at hrev h2
        have hb : b = c0 := by simpa using hrev
        have := head_not_of_dropWhile_eq_self isJsWs b bs h2
        rw [← hcc, ← hb]
        exact this

theorem enq_fresh_reg
    (normCtx : Option DeliveryContext → Option DeliveryContext)
    (ctxKey : Option DeliveryContext → Option String)
    (reg : Registry) (key : String) (item : AnnounceQueueItem)
    (settings : AnnounceQueueSettings) (sd : Nat) (now : Nat)
    (hnone : reg key = none) :
    (enqueueAnnounce normCtx ctxKey reg key item settings sd now).reg =
      updateReg reg key
        { pushItem normCtx ctxKey
            { createdAnnounceQueue settings sd with lastEnqueuedAt := now } item with
          draining := true, forceIndividualCollect := false } := by
  have hsh : enqueueAnnounce normCtx ctxKey reg key item settings sd now =
      ⟨scheduleAnnounceDrain (updateReg reg key
        (pushItem normCtx ctxKey
          { createdAnnounceQueue settings sd with lastEnqueuedAt := now } item)) key,
       true⟩ := by
    unfold enqueueAnnounce
    rw [hnone]
    simp only [getAnnounceQueue]
    rw [if_neg ?hg]
    case hg =>
      rintro ⟨hg1, hg2⟩
      simp [createdAnnounceQueue] at hg1 hg2
      omega
  rw [hsh]
  have hP : (pushItem normCtx ctxKey
      { createdAnnounceQueue settings sd with lastEnqueuedAt := now } item).draining
        = false := rfl
  rw [show (⟨scheduleAnnounceDrain (updateReg reg key
      (pushItem normCtx ctxKey
        { createdAnnounceQueue settings sd with lastEnqueuedAt := now } item)) key,
      true⟩ : EnqueueOutcome).reg =
    scheduleAnnounceDrain (updateReg reg key
      (pushItem normCtx ctxKey
        { createdAnnounceQueue settings sd with lastEnqueuedAt := now } item)) key
    from rfl]
  rw [schedule_activates _ _ _ (updateReg_self _ _ _) hP]
  exact updateReg_updateReg _ _ _ _

theorem enq_existing_nodrop_reg
    (normCtx : Option DeliveryContext → Option DeliveryContext)
    (ctxKey : Option DeliveryContext → Option String)
    (reg : Registry) (key : String) (item : AnnounceQueueItem)
    (settings : AnnounceQueueSettings) (sd : Nat) (now : Nat) (q : AnnounceQueueState)
    (hq : reg key = some q) (hdr : q.draining = true)
    (hng : ¬ (0 < (mergeAnnounceQueue q settings sd).cap ∧
      (mergeAnnounceQueue q settings sd).cap ≤
        ((mergeAnnounceQueue q settings sd).items.length : ℤ))) :
    (enqueueAnnounce normCtx ctxKey reg key item settings sd now).reg =
      updateReg reg key (pushItem normCtx ctxKey
        { mergeAnnounceQueue q settings sd with lastEnqueuedAt := now } item) := by
  unfold enqueueAnnounce
  rw [hq]
  simp only [getAnnounceQueue]
  rw [if_neg hng]
  have hP : (pushItem normCtx ctxKey
      { mergeAnnounceQueue q settings sd with lastEnqueuedAt := now } item).draining
        = true := hdr
  rw [show (⟨scheduleAnnounceDrain (updateReg reg key
      (pushItem normCtx ctxKey
        { mergeAnnounceQueue q settings sd with lastEnqueuedAt := now } item)) key,
      true⟩ : EnqueueOutcome).reg =
    scheduleAnnounceDrain (updateReg reg key
      (pushItem normCtx ctxKey
        { mergeAnnounceQueue q settings sd with lastEnqueuedAt := now } item)) key
    from rfl]
  rw [schedule_noop_of_draining _ _ _ (updateReg_self _ _ _) hP]

theorem collectBlock_eq (idx : Nat) (i : AnnounceQueueItem)
    (h1 : jsTrim i.prompt = i.prompt) (h2 : i.prompt ≠ "") :
    collectBlock idx i = ("---\nQueued #" ++ toString (idx + 1) ++ "\n") ++ i.prompt := by
  unfold collectBlock
  have hassoc : "---\nQueued #" ++ toString (idx + 1) ++ "\n" ++ i.prompt =
      ("---\nQueued #" ++ toString (idx + 1) ++ "\n") ++ i.prompt := rfl
  rw [hassoc]
  apply jsTrim_append_prefix _ _ '-' ?hpre (by decide) h1 h2
  case hpre =>
    rw [str_data_append, str_data_append]
    rfl


theorem runEvents_enq_step
    (normCtx : Option DeliveryContext → Option DeliveryContext)
    (ctxKey : Option DeliveryContext → Option String) (reg : Registry)
    (key : String) (item : AnnounceQueueItem) (settings : AnnounceQueueSettings)
    (sd : Nat) (now : Nat) (rest : List QueueEvent) :
    runEvents normCtx ctxKey reg (QueueEvent.enq key item settings sd now :: rest) =
      runEvents normCtx ctxKey
        (enqueueAnnounce normCtx ctxKey reg key item settings sd now).reg rest := rfl

theorem runEvents_cycle_step
    (normCtx : Option DeliveryContext → Option DeliveryContext)
    (ctxKey : Option DeliveryContext → Option String) (reg : Registry)
    (key : String) (ok : Bool) (rest : List QueueEvent) :
    runEvents normCtx ctxKey reg (QueueEvent.cycle key ok :: rest) =
      ⟨(runEvents normCtx ctxKey (drainCycle reg key ok).reg rest).reg,
       (drainCycle reg key ok).sent ++
         (runEvents normCtx ctxKey (drainCycle reg key ok).reg rest).sent,
       (drainCycle reg key ok).logs ++
         (runEvents normCtx ctxKey (drainCycle reg key ok).reg rest).logs⟩ := rfl

theorem runEvents_nil
    (normCtx : Option DeliveryContext → Option DeliveryContext)
    (ctxKey : Option DeliveryContext → Option String) (reg : Registry) :
    runEvents normCtx ctxKey reg [] = ⟨reg, [], []⟩ := rfl

theorem drainCycle_collect_batch
    (reg : Registry) (key : String) (q : AnnounceQueueState)
    (x last : AnnounceQueueItem) (xs : List AnnounceQueueItem)
    (hq : reg key = some q) (hdr : q.draining = true)
    (hmode : q.mode = QueueMode.collect) (hforce : q.forceIndividualCollect = false)
    (hcross : hasCrossChannelItems q.items = false)
    (hitems : q.items = x :: xs) (hlast : (x :: xs).getLast? = some last) :
    drainCycle reg key true =
      ⟨updateReg reg key (buildSummaryPrompt { q with items := [] }).2,
       [{ last with prompt :=
          buildCollectPrompt q.items (buildSummaryPrompt { q with items := [] }).1 }],
       []⟩ := by
  obtain ⟨items, dr, fc, lastq, mode, db, cap, pol, dc, sl, sn⟩ := q
  simp only at hdr hmode hforce hitems hcross
  subst hdr hmode hforce hitems
  simp [drainCycle, hq, hcross, hlast, sendStep]

theorem drainCycle_done
    (reg : Registry) (key : String) (q : AnnounceQueueState) (ok : Bool)
    (hq : reg key = some q) (hi : q.items = []) (hd : q.droppedCount = 0) :
    drainCycle reg key ok =
      (if q.draining = true then ⟨eraseQueue reg key, [], []⟩ else ⟨reg, [], []⟩) := by
  obtain ⟨items, dr, fc, lastq, mode, db, cap, pol, dc, sl, sn⟩ := q
  simp only at hi hd
  subst hi hd
  cases dr with
  | false => simp [drainCycle, hq]
  | true => simp [drainCycle, hq]

/-- C1: in collect mode with a single channel, three items sharing one
origin key, enqueued into one key before the drain cycle consumes them,
produce exactly one delivered message whose body contains all three item
bodies in enqueue order, carrying the metadata (sessionKey, enqueuedAt,
summaryLine, origin identity) of the third item; the drain then finds the
backlog empty and removes the registry entry, logging nothing. -/
theorem collect_single_channel_spec
    (normCtx : Option DeliveryContext → Option DeliveryContext)
    (ctxKey : Option DeliveryContext → Option String)
    (i1 i2 i3 : AnnounceQueueItem) (o1 o2 o3 : DeliveryContext) (ch : String)
    (sd : Nat) (hch : ch ≠ "")
    (hn1 : normCtx i1.origin = some o1) (hn2 : normCtx i2.origin = some o2)
    (hn3 : normCtx i3.origin = some o3)
    (hk1 : ctxKey (some o1) = some ch) (hk2 : ctxKey (some o2) = some ch)
    (hk3 : ctxKey (some o3) = some ch)
    (ht1 : jsTrim i1.prompt = i1.prompt) (ht2 : jsTrim i2.prompt = i2.prompt)
    (ht3 : jsTrim i3.prompt = i3.prompt)
    (he1 : i1.prompt ≠ "") (he2 : i2.prompt ≠ "") (he3 : i3.prompt ≠ "") :
    (runEvents normCtx ctxKey emptyRegistry (collectTrace i1 i2 i3 sd)).reg "k" = none ∧
    (runEvents normCtx ctxKey emptyRegistry (collectTrace i1 i2 i3 sd)).logs = [] ∧
    (∃ m, (runEvents normCtx ctxKey emptyRegistry (collectTrace i1 i2 i3 sd)).sent = [m] ∧
      m.sessionKey = i3.sessionKey ∧ m.enqueuedAt = i3.enqueuedAt ∧
      m.summaryLine = i3.summaryLine ∧ m.origin = some o3 ∧ m.originKey = some ch ∧
      ∃ a b c, m.prompt = a ++ (i1.prompt ++ (b ++ (i2.prompt ++ (c ++ i3.prompt))))) := by
  have hj1 : pushedItem normCtx ctxKey i1 = keyedItem i1 o1 ch := by
    unfold pushedItem keyedItem
    rw [hn1, hk1]
  have hj2 : pushedItem normCtx ctxKey i2 = keyedItem i2 o2 ch := by
    unfold pushedItem keyedItem
    rw [hn2, hk2]
  have hj3 : pushedItem normCtx ctxKey i3 = keyedItem i3 o3 ch := by
    unfold pushedItem keyedItem
    rw [hn3, hk3]
  have hr1 : (enqueueAnnounce normCtx ctxKey emptyRegistry "k" i1
      ⟨QueueMode.collect, none, none, none⟩ sd 1).reg =
      updateReg emptyRegistry "k" (collectState [keyedItem i1 o1 ch] 1 sd) := by
    rw [enq_fresh_reg normCtx ctxKey emptyRegistry "k" i1
      ⟨QueueMode.collect, none, none, none⟩ sd 1 rfl]
    rw [show ({ pushItem normCtx ctxKey
        { createdAnnounceQueue ⟨QueueMode.collect, none, none, none⟩ sd with
          lastEnqueuedAt := 1 } i1 with
        draining := true, forceIndividualCollect := false } : AnnounceQueueState) =
      collectState [pushedItem normCtx ctxKey i1] 1 sd from rfl]
    rw [hj1]
  have hr2 : (enqueueAnnounce normCtx ctxKey
      (updateReg emptyRegistry "k" (collectState [keyedItem i1 o1 ch] 1 sd))
      "k" i2 ⟨QueueMode.collect, none, none, none⟩ sd 2).reg =
      updateReg emptyRegistry "k"
        (collectState [keyedItem i1 o1 ch, keyedItem i2 o2 ch] 2 sd) := by
    rw [enq_existing_nodrop_reg normCtx ctxKey _ "k" i2
      ⟨QueueMode.collect, none, none, none⟩ sd 2 _ (updateReg_self _ _ _) rfl ?hng2]
    case hng2 =>
      rintro ⟨-, h2⟩
      have h3 : (20 : ℤ) ≤ (1 : ℤ) := h2
      omega
    rw [updateReg_updateReg]
    rw [show (pushItem normCtx ctxKey
        { mergeAnnounceQueue (collectState [keyedItem i1 o1 ch] 1 sd)
            ⟨QueueMode.collect, none, none, none⟩ sd with lastEnqueuedAt := 2 } i2) =
      collectState [keyedItem i1 o1 ch, pushedItem normCtx ctxKey i2] 2 sd from rfl]
    rw [hj2]
  have hr3 : (enqueueAnnounce normCtx ctxKey
      (updateReg emptyRegistry "k"
        (collectState [keyedItem i1 o1 ch, keyedItem i2 o2 ch] 2 sd))
      "k" i3 ⟨QueueMode.collect, none, none, none⟩ sd 3).reg =
      updateReg emptyRegistry "k"
        (collectState [keyedItem i1 o1 ch, keyedItem i2 o2 ch, keyedItem i3 o3 ch]
          3 sd) := by
    rw [enq_existing_nodrop_reg normCtx ctxKey _ "k" i3
      ⟨QueueMode.collect, none, none, none⟩ sd 3 _ (updateReg_self _ _ _) rfl ?hng3]
    case hng3 =>
      rintro ⟨-, h2⟩
      have h3 : (20 : ℤ) ≤ (2 : ℤ) := h2
      omega
    rw [updateReg_updateReg]
    rw [show (pushItem normCtx ctxKey
        { mergeAnnounceQueue
            (collectState [keyedItem i1 o1 ch, keyedItem i2 o2 ch] 2 sd)
            ⟨QueueMode.collect, none, none, none⟩ sd with lastEnqueuedAt := 3 } i3) =
      collectState [keyedItem i1 o1 ch, keyedItem i2 o2 ch,
        pushedItem normCtx ctxKey i3] 3 sd from rfl]
    rw [hj3]
  have hu : runEvents normCtx ctxKey emptyRegistry (collectTrace i1 i2 i3 sd) =
      runEvents normCtx ctxKey
        (updateReg emptyRegistry "k"
          (collectState [keyedItem i1 o1 ch, keyedItem i2 o2 ch, keyedItem i3 o3 ch]
            3 sd))
        [QueueEvent.cycle "k" true, QueueEvent.cycle "k" true] := by
    simp only [collectTrace]
    rw [runEvents_enq_step, hr1, runEvents_enq_step, hr2, runEvents_enq_step, hr3]
  have hcr : hasCrossChannelItems
      [keyedItem i1 o1 ch, keyedItem i2 o2 ch, keyedItem i3 o3 ch] = false := by
    simp [hasCrossChannelItems, hasCrossChannelLoop, insertKeyOnce, keyedItem, hch]
  have hc1 : drainCycle (updateReg emptyRegistry "k"
      (collectState [keyedItem i1 o1 ch, keyedItem i2 o2 ch, keyedItem i3 o3 ch] 3 sd))
      "k" true =
      ⟨updateReg (updateReg emptyRegistry "k"
          (collectState [keyedItem i1 o1 ch, keyedItem i2 o2 ch, keyedItem i3 o3 ch]
            3 sd)) "k"
        (collectState ([] : List AnnounceQueueItem) 3 sd),
       [{ keyedItem i3 o3 ch with prompt := (buildCollectPrompt
          [keyedItem i1 o1 ch, keyedItem i2 o2 ch, keyedItem i3 o3 ch] none) }],
       []⟩ := by
    exact drainCycle_collect_batch _ "k" _
      (keyedItem i1 o1 ch) (keyedItem i3 o3 ch)
      [keyedItem i2 o2 ch, keyedItem i3 o3 ch]
      (updateReg_self _ _ _) rfl rfl rfl hcr rfl rfl
  have hc2 : drainCycle (updateReg emptyRegistry "k"
      (collectState ([] : List AnnounceQueueItem) 3 sd)) "k" true =
      ⟨eraseQueue (updateReg emptyRegistry "k"
        (collectState ([] : List AnnounceQueueItem) 3 sd)) "k", [], []⟩ := by
    have h := drainCycle_done (updateReg emptyRegistry "k"
      (collectState ([] : List AnnounceQueueItem) 3 sd)) "k"
      (collectState ([] : List AnnounceQueueItem) 3 sd) true
      (updateReg_self _ _ _) rfl rfl
    rw [h]
    rfl
  rw [hu, runEvents_cycle_step, hc1]
  dsimp only
  rw [updateReg_updateReg, runEvents_cycle_step, hc2]
  dsimp only
  rw [runEvents_nil]
  dsimp only
  refine ⟨eraseQueue_self _ _, by simp, ?_⟩
  refine ⟨{ keyedItem i3 o3 ch with prompt := (buildCollectPrompt
      [keyedItem i1 o1 ch, keyedItem i2 o2 ch, keyedItem i3 o3 ch] none) },
    by simp, rfl, rfl, rfl, rfl, rfl, ?_⟩
  refine ⟨"[Queued announce messages while agent was busy]" ++ "\n\n" ++
      ("---\nQueued #" ++ toString 1 ++ "\n"),
    "\n\n" ++ ("---\nQueued #" ++ toString 2 ++ "\n"),
    "\n\n" ++ ("---\nQueued #" ++ toString 3 ++ "\n"), ?_⟩
  have e1 : collectBlock 0 (keyedItem i1 o1 ch) =
      ("---\nQueued #" ++ toString 1 ++ "\n") ++ i1.prompt :=
    collectBlock_eq 0 (keyedItem i1 o1 ch) ht1 he1
  have e2 : collectBlock 1 (keyedItem i2 o2 ch) =
      ("---\nQueued #" ++ toString 2 ++ "\n") ++ i2.prompt :=
    collectBlock_eq 1 (keyedItem i2 o2 ch) ht2 he2
  have e3 : collectBlock 2 (keyedItem i3 o3 ch) =
      ("---\nQueued #" ++ toString 3 ++ "\n") ++ i3.prompt :=
    collectBlock_eq 2 (keyedItem i3 o3 ch) ht3 he3
  show buildCollectPrompt
      [keyedItem i1 o1 ch, keyedItem i2 o2 ch, keyedItem i3 o3 ch] none = _
  rw [show buildCollectPrompt
      [keyedItem i1 o1 ch, keyedItem i2 o2 ch, keyedItem i3 o3 ch] none =
    joinLines "\n\n" ["[Queued announce messages while agent was busy]",
      collectBlock 0 (keyedItem i1 o1 ch), collectBlock 1 (keyedItem i2 o2 ch),
      collectBlock 2 (keyedItem i3 o3 ch)] from rfl]
  rw [e1, e2, e3]
  rw [show joinLines "\n\n" ["[Queued announce messages while agent was busy]",
      ("---\nQueued #" ++ toString 1 ++ "\n") ++ i1.prompt,
      ("---\nQueued #" ++ toString 2 ++ "\n") ++ i2.prompt,
      ("---\nQueued #" ++ toString 3 ++ "\n") ++ i3.prompt] =
    "[Queued announce messages while agent was busy]" ++ "\n\n" ++
      ((("---\nQueued #" ++ toString 1 ++ "\n") ++ i1.prompt) ++ "\n\n" ++
        ((("---\nQueued #" ++ toString 2 ++ "\n") ++ i2.prompt) ++ "\n\n" ++
          (("---\nQueued #" ++ toString 3 ++ "\n") ++ i3.prompt))) from rfl]
  apply strExt
  simp [str_data_append, List.append_assoc]

theorem collect_single_channel_spec_witness :
    (runEvents idCtx keyCtx emptyRegistry (collectTrace
      (mkAnnounceItem "alpha" "s1" (some "chan") none)
      (mkAnnounceItem "beta" "s2" (some "chan") none)
      (mkAnnounceItem "gamma" "s3" (some "chan") none) 7)).reg "k" = none ∧
    (runEvents idCtx keyCtx emptyRegistry (collectTrace
      (mkAnnounceItem "alpha" "s1" (some "chan") none)
      (mkAnnounceItem "beta" "s2" (some "chan") none)
      (mkAnnounceItem "gamma" "s3" (some "chan") none) 7)).logs = [] ∧
    (∃ m, (runEvents idCtx keyCtx emptyRegistry (collectTrace
      (mkAnnounceItem "alpha" "s1" (some "chan") none)
      (mkAnnounceItem "beta" "s2" (some "chan") none)
      (mkAnnounceItem "gamma" "s3" (some "chan") none) 7)).sent = [m] ∧
      m.sessionKey = (mkAnnounceItem "gamma" "s3" (some "chan") none).sessionKey ∧
      m.enqueuedAt = (mkAnnounceItem "gamma" "s3" (some "chan") none).enqueuedAt ∧
      m.summaryLine = (mkAnnounceItem "gamma" "s3" (some "chan") none).summaryLine ∧
      m.origin = some "chan" ∧ m.originKey = some "chan" ∧
      ∃ a b c, m.prompt = a ++
        ((mkAnnounceItem "alpha" "s1" (some "chan") none).prompt ++
          (b ++ ((mkAnnounceItem "beta" "s2" (some "chan") none).prompt ++
            (c ++ (mkAnnounceItem "gamma" "s3" (some "chan") none).prompt))))) := by
  exact collect_single_channel_spec idCtx keyCtx
    (mkAnnounceItem "alpha" "s1" (some "chan") none)
    (mkAnnounceItem "beta" "s2" (some "chan") none)
    (mkAnnounceItem "gamma" "s3" (some "chan") none)
    "chan" "chan" "chan" "chan" 7 (by decide)
    rfl rfl rfl rfl rfl rfl
    (by decide) (by decide) (by decide) (by decide) (by decide) (by decide)

theorem enq_existing_drop_reg
    (normCtx : Option DeliveryContext → Option DeliveryContext)
    (ctxKey : Option DeliveryContext → Option String)
    (reg : Registry) (key : String) (item : AnnounceQueueItem)
    (settings : AnnounceQueueSettings) (sd : Nat) (now : Nat) (q : AnnounceQueueState)
    (hq : reg key = some q) (hdr : q.draining = true)
    (hg : 0 < (mergeAnnounceQueue q settings sd).cap ∧
      (mergeAnnounceQueue q settings sd).cap ≤
        ((mergeAnnounceQueue q settings sd).items.length : ℤ))
    (hnew : ¬ (mergeAnnounceQueue q settings sd).dropPolicy = QueueDropPolicy.new)
    (hsumm : (mergeAnnounceQueue q settings sd).dropPolicy = QueueDropPolicy.summarize) :
    (enqueueAnnounce normCtx ctxKey reg key item settings sd now).reg =
      updateReg reg key (pushItem normCtx ctxKey
        { mergeAnnounceQueue q settings sd with
          lastEnqueuedAt := now
          items := (mergeAnnounceQueue q settings sd).items.drop
            ((mergeAnnounceQueue q settings sd).items.length + 1 -
              (mergeAnnounceQueue q settings sd).cap.toNat)
          droppedCount := (mergeAnnounceQueue q settings sd).droppedCount +
            ((mergeAnnounceQueue q settings sd).items.take
              ((mergeAnnounceQueue q settings sd).items.length + 1 -
                (mergeAnnounceQueue q settings sd).cap.toNat)).length
          summaryLines := trimSummaryLines (mergeAnnounceQueue q settings sd).cap.toNat
            ((mergeAnnounceQueue q settings sd).summaryLines ++
              ((mergeAnnounceQueue q settings sd).items.take
                ((mergeAnnounceQueue q settings sd).items.length + 1 -
                  (mergeAnnounceQueue q settings sd).cap.toNat)).map
                buildQueueSummaryLine) } item) := by
  unfold enqueueAnnounce
  rw [hq]
  simp only [getAnnounceQueue]
  rw [if_pos hg, if_neg hnew, if_pos hsumm]
  have hP : (pushItem normCtx ctxKey
      { mergeAnnounceQueue q settings sd with
        lastEnqueuedAt := now
        items := (mergeAnnounceQueue q settings sd).items.drop
          ((mergeAnnounceQueue q settings sd).items.length + 1 -
            (mergeAnnounceQueue q settings sd).cap.toNat)
        droppedCount := (mergeAnnounceQueue q settings sd).droppedCount +
          ((mergeAnnounceQueue q settings sd).items.take
            ((mergeAnnounceQueue q settings sd).items.length + 1 -
              (mergeAnnounceQueue q settings sd).cap.toNat)).length
        summaryLines := trimSummaryLines (mergeAnnounceQueue q settings sd).cap.toNat
          ((mergeAnnounceQueue q settings sd).summaryLines ++
            ((mergeAnnounceQueue q settings sd).items.take
              ((mergeAnnounceQueue q settings sd).items.length + 1 -
                (mergeAnnounceQueue q settings sd).cap.toNat)).map
              buildQueueSummaryLine) } item).draining = true := hdr
  rw [schedule_noop_of_draining _ _ _ (updateReg_self _ _ _) hP]

theorem drainCycle_individual_summary
    (reg : Registry) (key : String) (q : AnnounceQueueState)
    (next : AnnounceQueueItem) (rest : List AnnounceQueueItem)
    (s : String) (q2 : AnnounceQueueState)
    (hq : reg key = some q) (hdr : q.draining = true)
    (hmode : q.mode = QueueMode.individual)
    (hbs : buildSummaryPrompt q = (some s, q2)) (hitems : q2.items = next :: rest) :
    drainCycle reg key true =
      ⟨updateReg reg key { q2 with items := rest }, [{ next with prompt := s }], []⟩ := by
  obtain ⟨items, dr, fc, lastq, mode, db, cap, pol, dc, sl, sn⟩ := q
  simp only at hdr hmode
  subst hdr hmode
  have hnonempty : ¬ (items = [] ∧ dc = 0) := by
    rintro ⟨hi, hd⟩
    subst hi hd
    rw [show buildSummaryPrompt
        ⟨[], true, fc, lastq, QueueMode.individual, db, cap, pol, 0, sl, sn⟩ =
      (none, ⟨[], true, fc, lastq, QueueMode.individual, db, cap, pol, 0, sl, sn⟩)
      from by unfold buildSummaryPrompt buildSummaryPromptLines; simp] at hbs
    exact absurd (congrArg Prod.fst hbs) (by simp)
  simp [drainCycle, hq, hnonempty, hbs, hitems, sendStep]

/-- C3: with cap 2 and the summarizing drop policy, enqueueing four
origin-less items for one key before any drain cycle runs leaves
droppedCount at 2 and summaryLines holding the elided text of exactly the
two oldest items in order, with the two newest items still queued; and in
either delivery mode the next delivered message contains the text
"Dropped 2 announces due to cap.". -/
theorem capTwo_summarize_spec
    (normCtx : Option DeliveryContext → Option DeliveryContext)
    (ctxKey : Option DeliveryContext → Option String)
    (hN : normCtx none = none) (hK : ctxKey none = none)
    (m : QueueMode) (i1 i2 i3 i4 : AnnounceQueueItem) (sd : Nat)
    (h1 : i1.origin = none) (h2 : i2.origin = none) (h3 : i3.origin = none)
    (h4 : i4.origin = none) :
    (∃ q, (runEvents normCtx ctxKey emptyRegistry
        (capTwoEnqs m i1 i2 i3 i4 sd)).reg "k" = some q ∧
      q.droppedCount = 2 ∧
      q.summaryLines = [buildQueueSummaryLine i1, buildQueueSummaryLine i2] ∧
      q.items.map (fun i => i.prompt) = [i3.prompt, i4.prompt]) ∧
    (∃ msg, (runEvents normCtx ctxKey emptyRegistry
        (capTwoEnqs m i1 i2 i3 i4 sd ++ [QueueEvent.cycle "k" true])).sent = [msg] ∧
      ∃ a b, msg.prompt = a ++ ("Dropped 2 announces due to cap." ++ b)) := by
  have hp1 : pushedItem normCtx ctxKey i1 = noKeyItem i1 := by
    unfold pushedItem noKeyItem
    rw [h1, hN, hK]
  have hp2 : pushedItem normCtx ctxKey i2 = noKeyItem i2 := by
    unfold pushedItem noKeyItem
    rw [h2, hN, hK]
  have hp3 : pushedItem normCtx ctxKey i3 = noKeyItem i3 := by
    unfold pushedItem noKeyItem
    rw [h3, hN, hK]
  have hp4 : pushedItem normCtx ctxKey i4 = noKeyItem i4 := by
    unfold pushedItem noKeyItem
    rw [h4, hN, hK]
  have hg0 : (0 : ℤ) < 2 := by norm_num
  have hg1 : (2 : ℤ) ≤ 2 := by norm_num
  have hnn : QueueDropPolicy.summarize ≠ QueueDropPolicy.new := by decide
  have hr1 : (enqueueAnnounce normCtx ctxKey emptyRegistry "k" i1
      ⟨m, none, some 2, some QueueDropPolicy.summarize⟩ sd 1).reg =
      updateReg emptyRegistry "k" (capTwoState m [noKeyItem i1] 1 sd 0 []) := by
    rw [enq_fresh_reg normCtx ctxKey emptyRegistry "k" i1
      ⟨m, none, some 2, some QueueDropPolicy.summarize⟩ sd 1 rfl]
    rw [show ({ pushItem normCtx ctxKey
        { createdAnnounceQueue ⟨m, none, some 2, some QueueDropPolicy.summarize⟩ sd with
          lastEnqueuedAt := 1 } i1 with
        draining := true, forceIndividualCollect := false } : AnnounceQueueState) =
      capTwoState m [pushedItem normCtx ctxKey i1] 1 sd 0 [] from rfl]
    rw [hp1]
  have hr2 : (enqueueAnnounce normCtx ctxKey
      (updateReg emptyRegistry "k" (capTwoState m [noKeyItem i1] 1 sd 0 []))
      "k" i2 ⟨m, none, some 2, some QueueDropPolicy.summarize⟩ sd 2).reg =
      updateReg emptyRegistry "k"
        (capTwoState m [noKeyItem i1, noKeyItem i2] 2 sd 0 []) := by
    rw [enq_existing_nodrop_reg normCtx ctxKey _ "k" i2
      ⟨m, none, some 2, some QueueDropPolicy.summarize⟩ sd 2 _
      (updateReg_self _ _ _) rfl ?hng2]
    case hng2 =>
      rintro ⟨-, hx⟩
      have hx2 : (2 : ℤ) ≤ (1 : ℤ) := hx
      omega
    rw [updateReg_updateReg]
    rw [show (pushItem normCtx ctxKey
        { mergeAnnounceQueue (capTwoState m [noKeyItem i1] 1 sd 0 [])
            ⟨m, none, some 2, some QueueDropPolicy.summarize⟩ sd with
          lastEnqueuedAt := 2 } i2) =
      capTwoState m [noKeyItem i1, pushedItem normCtx ctxKey i2] 2 sd 0 [] from rfl]
    rw [hp2]
  have hr3 : (enqueueAnnounce normCtx ctxKey
      (updateReg emptyRegistry "k" (capTwoState m [noKeyItem i1, noKeyItem i2] 2 sd 0 []))
      "k" i3 ⟨m, none, some 2, some QueueDropPolicy.summarize⟩ sd 3).reg =
      updateReg emptyRegistry "k"
        (capTwoState m [noKeyItem i2, noKeyItem i3] 3 sd 1
          [buildQueueSummaryLine (noKeyItem i1)]) := by
    rw [enq_existing_drop_reg normCtx ctxKey _ "k" i3
      ⟨m, none, some 2, some QueueDropPolicy.summarize⟩ sd 3
      (capTwoState m [noKeyItem i1, noKeyItem i2] 2 sd 0 [])
      (updateReg_self _ _ _) rfl ⟨hg0, hg1⟩ hnn rfl]
    rw [updateReg_updateReg]
    rw [show (pushItem normCtx ctxKey
        { mergeAnnounceQueue (capTwoState m [noKeyItem i1, noKeyItem i2] 2 sd 0 [])
            ⟨m, none, some 2, some QueueDropPolicy.summarize⟩ sd with
          lastEnqueuedAt := 3
          items := (mergeAnnounceQueue (capTwoState m [noKeyItem i1, noKeyItem i2] 2 sd 0 [])
              ⟨m, none, some 2, some QueueDropPolicy.summarize⟩ sd).items.drop
            ((mergeAnnounceQueue (capTwoState m [noKeyItem i1, noKeyItem i2] 2 sd 0 [])
              ⟨m, none, some 2, some QueueDropPolicy.summarize⟩ sd).items.length + 1 -
              (mergeAnnounceQueue (capTwoState m [noKeyItem i1, noKeyItem i2] 2 sd 0 [])
                ⟨m, none, some 2, some QueueDropPolicy.summarize⟩ sd).cap.toNat)
          droppedCount := (mergeAnnounceQueue
              (capTwoState m [noKeyItem i1, noKeyItem i2] 2 sd 0 [])
              ⟨m, none, some 2, some QueueDropPolicy.summarize⟩ sd).droppedCount +
            ((mergeAnnounceQueue (capTwoState m [noKeyItem i1, noKeyItem i2] 2 sd 0 [])
              ⟨m, none, some 2, some QueueDropPolicy.summarize⟩ sd).items.take
              ((mergeAnnounceQueue (capTwoState m [noKeyItem i1, noKeyItem i2] 2 sd 0 [])
                ⟨m, none, some 2, some QueueDropPolicy.summarize⟩ sd).items.length + 1 -
                (mergeAnnounceQueue (capTwoState m [noKeyItem i1, noKeyItem i2] 2 sd 0 [])
                  ⟨m, none, some 2, some QueueDropPolicy.summarize⟩ sd).cap.toNat)).length
          summaryLines := trimSummaryLines (mergeAnnounceQueue
              (capTwoState m [noKeyItem i1, noKeyItem i2] 2 sd 0 [])
              ⟨m, none, some 2, some QueueDropPolicy.summarize⟩ sd).cap.toNat
            ((mergeAnnounceQueue (capTwoState m [noKeyItem i1, noKeyItem i2] 2 sd 0 [])
              ⟨m, none, some 2, some QueueDropPolicy.summarize⟩ sd).summaryLines ++
              ((mergeAnnounceQueue (capTwoState m [noKeyItem i1, noKeyItem i2] 2 sd 0 [])
                ⟨m, none, some 2, some QueueDropPolicy.summarize⟩ sd).items.take
                ((mergeAnnounceQueue (capTwoState m [noKeyItem i1, noKeyItem i2] 2 sd 0 [])
                  ⟨m, none, some 2, some QueueDropPolicy.summarize⟩ sd).items.length + 1 -
                  (mergeAnnounceQueue (capTwoState m [noKeyItem i1, noKeyItem i2] 2 sd 0 [])
                    ⟨m, none, some 2, some QueueDropPolicy.summarize⟩ sd).cap.toNat)).map
                buildQueueSummaryLine) } i3) =
      capTwoState m [noKeyItem i2, pushedItem normCtx ctxKey i3] 3 sd 1
        [buildQueueSummaryLine (noKeyItem i1)] from rfl]
    rw [hp3]
  have hr4 : (enqueueAnnounce normCtx ctxKey
      (updateReg emptyRegistry "k" (capTwoState m [noKeyItem i2, noKeyItem i3] 3 sd 1
        [buildQueueSummaryLine (noKeyItem i1)]))
      "k" i4 ⟨m, none, some 2, some QueueDropPolicy.summarize⟩ sd 4).reg =
      updateReg emptyRegistry "k"
        (capTwoState m [noKeyItem i3, noKeyItem i4] 4 sd 2
          [buildQueueSummaryLine (noKeyItem i1),
           buildQueueSummaryLine (noKeyItem i2)]) := by
    rw [enq_existing_drop_reg normCtx ctxKey _ "k" i4
      ⟨m, none, some 2, some QueueDropPolicy.summarize⟩ sd 4
      (capTwoState m [noKeyItem i2, noKeyItem i3] 3 sd 1
        [buildQueueSummaryLine (noKeyItem i1)])
      (updateReg_self _ _ _) rfl ⟨hg0, hg1⟩ hnn rfl]
    rw [updateReg_updateReg, ← hp4]
    rfl
  have hru4 : runEvents normCtx ctxKey emptyRegistry (capTwoEnqs m i1 i2 i3 i4 sd) =
      ⟨updateReg emptyRegistry "k"
        (capTwoState m [noKeyItem i3, noKeyItem i4] 4 sd 2
          [buildQueueSummaryLine (noKeyItem i1),
           buildQueueSummaryLine (noKeyItem i2)]), [], []⟩ := by
    simp only [capTwoEnqs]
    rw [runEvents_enq_step, hr1, runEvents_enq_step, hr2, runEvents_enq_step, hr3,
      runEvents_enq_step, hr4, runEvents_nil]
  refine ⟨⟨capTwoState m [noKeyItem i3, noKeyItem i4] 4 sd 2
      [buildQueueSummaryLine (noKeyItem i1), buildQueueSummaryLine (noKeyItem i2)],
    by rw [hru4]; dsimp only; exact updateReg_self _ _ _, rfl, rfl, rfl⟩, ?_⟩
  have hru5 : runEvents normCtx ctxKey emptyRegistry
      (capTwoEnqs m i1 i2 i3 i4 sd ++ [QueueEvent.cycle "k" true]) =
      runEvents normCtx ctxKey
        (updateReg emptyRegistry "k" (capTwoState m [noKeyItem i3, noKeyItem i4] 4 sd 2
          [buildQueueSummaryLine (noKeyItem i1),
           buildQueueSummaryLine (noKeyItem i2)]))
        [QueueEvent.cycle "k" true] := by
    simp only [capTwoEnqs, List.cons_append, List.nil_append]
    rw [runEvents_enq_step, hr1, runEvents_enq_step, hr2, runEvents_enq_step, hr3,
      runEvents_enq_step, hr4]
  rw [hru5]
  cases m with
  | individual =>
    have hbs : buildSummaryPrompt (capTwoState QueueMode.individual
        [noKeyItem i3, noKeyItem i4] 4 sd 2
        [buildQueueSummaryLine (noKeyItem i1), buildQueueSummaryLine (noKeyItem i2)]) =
        (some (joinLines "\n" [summaryHeaderLine 2, "Summary:",
          "- " ++ buildQueueSummaryLine (noKeyItem i1),
          "- " ++ buildQueueSummaryLine (noKeyItem i2)]),
         capTwoState QueueMode.individual [noKeyItem i3, noKeyItem i4] 4 sd 0 []) := rfl
    have hcyc := drainCycle_individual_summary
      (updateReg emptyRegistry "k" (capTwoState QueueMode.individual
        [noKeyItem i3, noKeyItem i4] 4 sd 2
        [buildQueueSummaryLine (noKeyItem i1), buildQueueSummaryLine (noKeyItem i2)]))
      "k"
      (capTwoState QueueMode.individual [noKeyItem i3, noKeyItem i4] 4 sd 2
        [buildQueueSummaryLine (noKeyItem i1), buildQueueSummaryLine (noKeyItem i2)])
      (noKeyItem i3) [noKeyItem i4]
      (joinLines "\n" [summaryHeaderLine 2, "Summary:",
        "- " ++ buildQueueSummaryLine (noKeyItem i1),
        "- " ++ buildQueueSummaryLine (noKeyItem i2)])
      (capTwoState QueueMode.individual [noKeyItem i3, noKeyItem i4] 4 sd 0 [])
      (updateReg_self _ _ _) rfl rfl hbs rfl
    rw [runEvents_cycle_step, hcyc]
    dsimp only
    rw [runEvents_nil]
    refine ⟨_, by rw [List.append_nil], ?_⟩
    refine ⟨"[Queue overflow] ",
      "\n" ++ ("Summary:" ++ ("\n" ++ (("- " ++ buildQueueSummaryLine (noKeyItem i1)) ++
        ("\n" ++ ("- " ++ buildQueueSummaryLine (noKeyItem i2)))))), ?_⟩
    show joinLines "\n" [summaryHeaderLine 2, "Summary:",
      "- " ++ buildQueueSummaryLine (noKeyItem i1),
      "- " ++ buildQueueSummaryLine (noKeyItem i2)] = _
    rw [show joinLines "\n" [summaryHeaderLine 2, "Summary:",
        "- " ++ buildQueueSummaryLine (noKeyItem i1),
        "- " ++ buildQueueSummaryLine (noKeyItem i2)] =
      summaryHeaderLine 2 ++ "\n" ++ ("Summary:" ++ "\n" ++
        (("- " ++ buildQueueSummaryLine (noKeyItem i1)) ++ "\n" ++
          ("- " ++ buildQueueSummaryLine (noKeyItem i2)))) from rfl]
    rw [show summaryHeaderLine 2 =
      "[Queue overflow] " ++ "Dropped 2 announces due to cap." from by decide]
    apply strExt
    simp [str_data_append, List.append_assoc]
  | collect =>
    have hcross : hasCrossChannelItems [noKeyItem i3, noKeyItem i4] = false := rfl
    have hcyc := drainCycle_collect_batch
      (updateReg emptyRegistry "k" (capTwoState QueueMode.collect
        [noKeyItem i3, noKeyItem i4] 4 sd 2
        [buildQueueSummaryLine (noKeyItem i1), buildQueueSummaryLine (noKeyItem i2)]))
      "k"
      (capTwoState QueueMode.collect [noKeyItem i3, noKeyItem i4] 4 sd 2
        [buildQueueSummaryLine (noKeyItem i1), buildQueueSummaryLine (noKeyItem i2)])
      (noKeyItem i3) (noKeyItem i4) [noKeyItem i4]
      (updateReg_self _ _ _) rfl rfl rfl hcross rfl rfl
    rw [runEvents_cycle_step, hcyc]
    dsimp only
    rw [runEvents_nil]
    refine ⟨_, by rw [List.append_nil], ?_⟩
    refine ⟨"[Queued announce messages while agent was busy]" ++
        ("\n\n" ++ "[Queue overflow] "),
      ("\n" ++ ("Summary:" ++ ("\n" ++ (("- " ++ buildQueueSummaryLine (noKeyItem i1)) ++
        ("\n" ++ ("- " ++ buildQueueSummaryLine (noKeyItem i2))))))) ++
        ("\n\n" ++ (collectBlock 0 (noKeyItem i3) ++
          ("\n\n" ++ collectBlock 1 (noKeyItem i4)))), ?_⟩
    show buildCollectPrompt
      (capTwoState QueueMode.collect [noKeyItem i3, noKeyItem i4] 4 sd 2
        [buildQueueSummaryLine (noKeyItem i1),
         buildQueueSummaryLine (noKeyItem i2)]).items
      (buildSummaryPrompt { capTwoState QueueMode.collect [noKeyItem i3, noKeyItem i4]
        4 sd 2 [buildQueueSummaryLine (noKeyItem i1),
          buildQueueSummaryLine (noKeyItem i2)] with items := [] }).1 = _
    rw [show buildCollectPrompt
        (capTwoState QueueMode.collect [noKeyItem i3, noKeyItem i4] 4 sd 2
          [buildQueueSummaryLine (noKeyItem i1),
           buildQueueSummaryLine (noKeyItem i2)]).items
        (buildSummaryPrompt { capTwoState QueueMode.collect [noKeyItem i3, noKeyItem i4]
          4 sd 2 [buildQueueSummaryLine (noKeyItem i1),
            buildQueueSummaryLine (noKeyItem i2)] with items := [] }).1 =
      "[Queued announce messages while agent was busy]" ++ "\n\n" ++
        ((summaryHeaderLine 2 ++ "\n" ++ ("Summary:" ++ "\n" ++
          (("- " ++ buildQueueSummaryLine (noKeyItem i1)) ++ "\n" ++
            ("- " ++ buildQueueSummaryLine (noKeyItem i2))))) ++ "\n\n" ++
          (collectBlock 0 (noKeyItem i3) ++ "\n\n" ++
            collectBlock 1 (noKeyItem i4))) from rfl]
    rw [show summaryHeaderLine 2 =
      "[Queue overflow] " ++ "Dropped 2 announces due to cap." from by decide]
    apply strExt
    simp [str_data_append, List.append_assoc]

theorem capTwo_summarize_spec_witness :
    idCtx none = none ∧ keyCtx none = none ∧
    (mkAnnounceItem "alpha" "s1" none none).origin = none ∧
    (mkAnnounceItem "beta" "s2" none none).origin = none ∧
    (mkAnnounceItem "gamma" "s3" none none).origin = none ∧
    (mkAnnounceItem "delta" "s4" none none).origin = none ∧
    ((∃ q, (runEvents idCtx keyCtx emptyRegistry
        (capTwoEnqs QueueMode.collect (mkAnnounceItem "alpha" "s1" none none)
          (mkAnnounceItem "beta" "s2" none none)
          (mkAnnounceItem "gamma" "s3" none none)
          (mkAnnounceItem "delta" "s4" none none) 7)).reg "k" = some q ∧
      q.droppedCount = 2 ∧
      q.summaryLines = [buildQueueSummaryLine (mkAnnounceItem "alpha" "s1" none none),
        buildQueueSummaryLine (mkAnnounceItem "beta" "s2" none none)] ∧
      q.items.map (fun i => i.prompt) =
        [(mkAnnounceItem "gamma" "s3" none none).prompt,
         (mkAnnounceItem "delta" "s4" none none).prompt]) ∧
    (∃ msg, (runEvents idCtx keyCtx emptyRegistry
        (capTwoEnqs QueueMode.collect (mkAnnounceItem "alpha" "s1" none none)
          (mkAnnounceItem "beta" "s2" none none)
          (mkAnnounceItem "gamma" "s3" none none)
          (mkAnnounceItem "delta" "s4" none none) 7 ++
            [QueueEvent.cycle "k" true])).sent = [msg] ∧
      ∃ a b, msg.prompt = a ++ ("Dropped 2 announces due to cap." ++ b))) :=
  ⟨rfl, rfl, rfl, rfl, rfl, rfl,
    capTwo_summarize_spec idCtx keyCtx rfl rfl QueueMode.collect
      (mkAnnounceItem "alpha" "s1" none none) (mkAnnounceItem "beta" "s2" none none)
      (mkAnnounceItem "gamma" "s3" none none) (mkAnnounceItem "delta" "s4" none none)
      7 rfl rfl rfl rfl⟩
